import Mathlib

/-!
Verification development for the bulk job runner of the Mailersend dashboard.

The embedded code is the client-side bulk-send run loop of
`src/src/contexts/BulkJobContext.tsx` (functions `startJob`, `pauseJob`,
`resumeJob`, `stopJob`, the elapsed-time ticker effect, and the per-recipient
loop body), together with the validation prefix of the near-duplicate bulk
track-event run loop of `src/unnamed/part_000`.

Modelling choices:
* JavaScript is single threaded; the run loop yields control only at its
  `await` points (the 500 ms pause poll, the 1000 ms countdown sleep, and the
  in-flight `fetch`).  The machine state `Susp` enumerates exactly those
  suspension points, and each transition function below is the synchronous
  code the loop executes between two suspension points, translated
  line by line from the source.
* The provider response body is external input; a network resolution carries a
  `NetOutcome` (2xx with a serialized body, non-2xx with the serialized
  provider error body, or a thrown network error with a message), matching the
  `response.ok` / `catch` split in the source.
* `JSON.parse` success for the track-event job is an external oracle,
  modelled as a Boolean-valued parameter.
-/

/-- Per-recipient outcome status, the union of success and error in the source. -/
inductive RStatus
  | success
  | error
deriving DecidableEq, Repr

/-- One entry of `results` (interface `SendResult` in the source). -/
structure SendResult where
  id : Nat
  email : String
  rstatus : RStatus
  response : String
deriving DecidableEq, Repr

/-- The `status` field of a job (union type in `JobState` in the source). -/
inductive JStatus
  | idle
  | processing
  | paused
  | completed
  | stopped
  | waiting
deriving DecidableEq, Repr

/-- The `progress` field, an object `\x7bcurrent, total\x7d` in the source. -/
structure Progress where
  current : Nat
  total : Nat
deriving DecidableEq, Repr

/-- The `stats` field, an object `\x7bsuccess, fail\x7d` in the source. -/
structure Stats where
  success : Nat
  fail : Nat
deriving DecidableEq, Repr

/-- The `JobState` record of `BulkJobContext.tsx`. -/
structure JobState where
  emailList : String
  subject : String
  content : String
  fromEmail : String
  fromName : String
  delay : Nat
  status : JStatus
  progress : Progress
  results : List SendResult
  stats : Stats
  elapsedSeconds : Nat
  countdown : Nat
deriving DecidableEq, Repr

/-- The `defaultJobState` constant of the source. -/
def defaultJobState : JobState :=
  { emailList := ""
    subject := ""
    content := ""
    fromEmail := ""
    fromName := ""
    delay := 1
    status := .idle
    progress := ⟨0, 0⟩
    results := []
    stats := ⟨0, 0⟩
    elapsedSeconds := 0
    countdown := 0 }

/-- The per-account run-control token
`controllers.current[accountId] : \x7bisPaused, isStopped\x7d`. -/
structure Ctrl where
  isPaused : Bool
  isStopped : Bool
deriving DecidableEq, Repr

/-- JavaScript `String.prototype.split('\n')`: cut the character sequence at
every newline, keeping empty pieces (written by structural recursion so that
concrete inputs evaluate inside the kernel). -/
def splitLines : List Char → List (List Char)
  | [] => [[]]
  | c :: rest =>
    match splitLines rest with
    | [] => [[]]
    | l :: ls => if c = '\n' then [] :: l :: ls else (c :: l) :: ls

/-- Whitespace stripped by `trim()` (the characters relevant to this input
domain: space, tab, newline, carriage return). -/
def isJsSpace (c : Char) : Bool :=
  c = ' ' || c = '\t' || c = '\n' || c = '\r'

/-- JavaScript `String.prototype.trim()` on a character sequence. -/
def trimChars (l : List Char) : List Char :=
  ((l.dropWhile isJsSpace).reverse.dropWhile isJsSpace).reverse

/-- Recipient parsing at job start (line 128):
`job.emailList.split('\n').map(e => e.trim()).filter(e => e.length > 0)`. -/
def parseEmails (s : String) : List String :=
  (((splitLines s.data).map trimChars).filter
    (fun e => e.length ≠ 0)).map String.mk

/-- Parameters captured by a run at start time: the parsed recipient list and
the `job.delay` value read from the job record captured at line 127. -/
structure RunParams where
  emails : List String
  delay : Nat
deriving DecidableEq, Repr

/-- Suspension points of the run loop, i.e. the `await` expressions at which
the otherwise synchronous loop yields control:
* `pauseA i` — the 500 ms sleep of the pre-delay pause-wait loop of
  iteration `i` (line 162);
* `pauseB i rem` — the 500 ms sleep of the pause-wait loop inside the
  countdown, with `rem` seconds of countdown left (line 174);
* `sleep i rem` — the 1000 ms countdown sleep, after which `rem` is
  decremented (line 177);
* `net i` — the `fetch` for recipient `i` is in flight (lines 193-206);
* `done` — the `startJob` invocation has returned. -/
inductive Susp
  | pauseA (i : Nat)
  | pauseB (i : Nat) (rem : Nat)
  | sleep (i : Nat) (rem : Nat)
  | net (i : Nat)
  | done
deriving DecidableEq, Repr

/-- Outcome of one provider call, as observed by the loop: `ok` carries the
serialized 2xx body, `httpErr` the serialized non-2xx provider error body,
`netErr` the message of a thrown network error. -/
inductive NetOutcome
  | ok (body : String)
  | httpErr (body : String)
  | netErr (msg : String)
deriving DecidableEq, Repr

/-- The serialized synthesized error object
`JSON.stringify(\x7b error: msg \x7d, null, 2)` of the catch branch
(line 243), modulo JSON escaping inside `msg`. -/
def errorJson (msg : String) : String :=
  "\x7b\n  \"error\": \"" ++ msg ++ "\"\n\x7d"

/-- The response string recorded for an outcome: the raw serialized provider
body in the try branch, the synthesized error object (with the
`error.message || "Network Error"` fallback) in the catch branch. -/
def errResponse : NetOutcome → String
  | .ok body => body
  | .httpErr body => body
  | .netErr msg => errorJson (if msg = "" then "Network Error" else msg)

/-- State of one account run: the job record, the current run-control token,
and the run-loop suspension point. -/
structure Sys where
  job : JobState
  ctrl : Ctrl
  pc : Susp
deriving DecidableEq, Repr

/-- Rebuild a `Sys` from a block result (job record and next suspension
point); the token object is shared and unchanged by loop code. -/
def applyBlk (s : Sys) (jp : JobState × Susp) : Sys :=
  { job := jp.1, ctrl := s.ctrl, pc := jp.2 }

/-- Lines 253-256: after the loop exits, write `completed` unless the current
token is stopped. -/
def finishBlock (ctrl : Ctrl) (job : JobState) : JobState × Susp :=
  if ctrl.isStopped then (job, .done)
  else ({ job with status := .completed }, .done)

/-- Lines 184-206: the re-check of stop after the delay phase, then the
dispatch of the `fetch` for recipient `i`. -/
def fetchBlock (ctrl : Ctrl) (i : Nat) (job : JobState) : JobState × Susp :=
  if ctrl.isStopped then
    finishBlock ctrl { job with status := .stopped }
  else (job, .net i)

/-- Line 181: on leaving the countdown loop, write status `processing` and
`countdown := 0`, then fall through to the stop re-check and fetch. -/
def delayExitBlock (ctrl : Ctrl) (i : Nat) (job : JobState) : JobState × Susp :=
  fetchBlock ctrl i { job with status := .processing, countdown := 0 }

/-- Lines 170-177: the head of `while (remaining > 0)` with current value
`rem`: break on stop, suspend on pause, otherwise start the 1000 ms sleep. -/
def delayIter (ctrl : Ctrl) (i rem : Nat) (job : JobState) : JobState × Susp :=
  if 0 < rem then
    if ctrl.isStopped then delayExitBlock ctrl i job
    else if ctrl.isPaused then (job, .pauseB i rem)
    else (job, .sleep i rem)
  else delayExitBlock ctrl i job

/-- Lines 166-182: the delay phase decision of iteration `i`: entered only
when `i > 0 && job.delay > 0`, writing status `waiting` and the full
countdown; otherwise fall through to the stop re-check and fetch. -/
def delayEnter (P : RunParams) (ctrl : Ctrl) (i : Nat) (job : JobState) :
    JobState × Susp :=
  if 0 < i ∧ 0 < P.delay then
    delayIter ctrl i P.delay
      { job with status := .waiting, countdown := P.delay }
  else fetchBlock ctrl i job

/-- Line 164 onward: the stop check after the pause-wait loop (a bare
`break`, no status write), then the delay phase. -/
def afterPauseBlock (P : RunParams) (ctrl : Ctrl) (i : Nat) (job : JobState) :
    JobState × Susp :=
  if ctrl.isStopped then finishBlock ctrl job
  else delayEnter P ctrl i job

/-- Lines 152-164: the top of iteration `i`: stop writes status `stopped` and
breaks, pause suspends in the pause-wait loop, otherwise fall through. -/
def iterTop (P : RunParams) (ctrl : Ctrl) (i : Nat) (job : JobState) :
    JobState × Susp :=
  if ctrl.isStopped then finishBlock ctrl { job with status := .stopped }
  else if ctrl.isPaused then (job, .pauseA i)
  else afterPauseBlock P ctrl i job

/-- Wake-up of the pre-delay pause-wait sleep (line 160-162): re-test the
loop condition; a stop observed while paused breaks out of the wait. -/
def wakePauseA (P : RunParams) (ctrl : Ctrl) (i : Nat) (job : JobState) :
    JobState × Susp :=
  if ctrl.isPaused then
    if ctrl.isStopped then afterPauseBlock P ctrl i job
    else (job, .pauseA i)
  else afterPauseBlock P ctrl i job

/-- Wake-up of the in-countdown pause-wait sleep (lines 172-175): when still
paused and not stopped, sleep again; otherwise fall through to the 1000 ms
countdown sleep (the source awaits it unconditionally after this loop). -/
def wakePauseB (ctrl : Ctrl) (i rem : Nat) (job : JobState) :
    JobState × Susp :=
  if ctrl.isPaused ∧ ¬ctrl.isStopped then (job, .pauseB i rem)
  else (job, .sleep i rem)

/-- Wake-up of the 1000 ms countdown sleep (lines 177-179): decrement
`remaining`, write it to `countdown`, re-enter the countdown loop head. -/
def wakeSleep (ctrl : Ctrl) (i rem : Nat) (job : JobState) :
    JobState × Susp :=
  delayIter ctrl i (rem - 1) { job with countdown := rem - 1 }

/-- Lines 209-250: record the outcome of recipient `i` (0-based) — one
atomic read-modify-write of the current record updating `stats`,
`progress.current` and `results` together, with the 1-based id `i + 1`. -/
def recordOutcome (i : Nat) (email : String) (o : NetOutcome)
    (job : JobState) : JobState :=
  match o with
  | .ok body =>
    { job with
      stats := { job.stats with success := job.stats.success + 1 }
      progress := { job.progress with current := i + 1 }
      results := ⟨i + 1, email, .success, body⟩ :: job.results }
  | .httpErr body =>
    { job with
      stats := { job.stats with fail := job.stats.fail + 1 }
      progress := { job.progress with current := i + 1 }
      results := ⟨i + 1, email, .error, body⟩ :: job.results }
  | .netErr msg =>
    { job with
      stats := { job.stats with fail := job.stats.fail + 1 }
      progress := { job.progress with current := i + 1 }
      results :=
        ⟨i + 1, email, .error,
          errorJson (if msg = "" then "Network Error" else msg)⟩ ::
          job.results }

/-- Resolution of the in-flight fetch of recipient `i`: the try/catch body
records the outcome, then the for loop either begins iteration `i + 1` or
exits into the completion check. -/
def wakeNet (P : RunParams) (ctrl : Ctrl) (i : Nat) (o : NetOutcome)
    (job : JobState) : JobState × Susp :=
  let job := recordOutcome i (P.emails.getD i "") o job
  if i + 1 < P.emails.length then iterTop P ctrl (i + 1) job
  else finishBlock ctrl job

/-- External events of one account run: timer resolutions of the sleeping
suspensions, resolution of the in-flight fetch, the three user commands
(which the source guards on token presence — present throughout a run), and
the once-per-second elapsed-time ticker. -/
inductive Ev
  | timer
  | netRes (o : NetOutcome)
  | pauseCmd
  | resumeCmd
  | stopCmd
  | tick
deriving DecidableEq, Repr

/-- One scheduling step of the account: deliver one event to the system.
The command branches are `pauseJob` / `resumeJob` / `stopJob` of the source
in the token-present case; `tick` is the interval effect of lines 79-100. -/
def sysStep (P : RunParams) (s : Sys) (e : Ev) : Sys :=
  match e with
  | .timer =>
    match s.pc with
    | .pauseA i => applyBlk s (wakePauseA P s.ctrl i s.job)
    | .pauseB i rem => applyBlk s (wakePauseB s.ctrl i rem s.job)
    | .sleep i rem => applyBlk s (wakeSleep s.ctrl i rem s.job)
    | _ => s
  | .netRes o =>
    match s.pc with
    | .net i => applyBlk s (wakeNet P s.ctrl i o s.job)
    | _ => s
  | .pauseCmd =>
    { s with
      ctrl := { s.ctrl with isPaused := true }
      job := { s.job with status := .paused } }
  | .resumeCmd =>
    { s with
      ctrl := { s.ctrl with isPaused := false }
      job := { s.job with status := .processing } }
  | .stopCmd =>
    { s with
      ctrl := { isPaused := false, isStopped := true }
      job := { s.job with status := .stopped } }
  | .tick =>
    if s.job.status = .processing ∨ s.job.status = .waiting then
      { s with job := { s.job with elapsedSeconds := s.job.elapsedSeconds + 1 } }
    else s

/-- Deliver a list of events in order. -/
def runEvents (P : RunParams) (s : Sys) (evs : List Ev) : Sys :=
  evs.foldl (sysStep P) s

/-- Wall-clock cost charged to an event, in whole seconds: waking the 1000 ms
countdown sleep accounts for one elapsed second; all other events are given
cost zero (a lower bound on real time). -/
def evCost (s : Sys) (e : Ev) : Nat :=
  match e, s.pc with
  | .timer, .sleep _ _ => 1
  | _, _ => 0

/-- Total wall-clock lower bound of a run over an event list. -/
def runCost (P : RunParams) : Sys → List Ev → Nat
  | _, [] => 0
  | s, e :: evs => evCost s e + runCost P (sysStep P s e) evs

/-- Per-account slice of the provider state: the `jobs[accountId]` entry
(absent until first written) and the `controllers.current[accountId]` token
(absent until the first `startJob` for the account). -/
structure Account where
  job : Option JobState
  token : Option Ctrl
deriving DecidableEq, Repr

/-- `getJob` of the source: the stored entry or a fresh default. -/
def getJob (acc : Account) : JobState :=
  acc.job.getD defaultJobState

/-- `pauseJob` (lines 102-108): a no-op without a token; otherwise mark the
token paused and merge `status := paused` into the job record. -/
def pauseJob (acc : Account) : Account :=
  match acc.token with
  | none => acc
  | some c =>
    { job := some { getJob acc with status := .paused }
      token := some { c with isPaused := true } }

/-- `resumeJob` (lines 110-116): a no-op without a token; otherwise mark the
token not paused and merge `status := processing`. -/
def resumeJob (acc : Account) : Account :=
  match acc.token with
  | none => acc
  | some c =>
    { job := some { getJob acc with status := .processing }
      token := some { c with isPaused := false } }

/-- `stopJob` (lines 118-124): a no-op without a token; otherwise mark the
token stopped and not paused and merge `status := stopped` eagerly. -/
def stopJob (acc : Account) : Account :=
  match acc.token with
  | none => acc
  | some _ =>
    { job := some { getJob acc with status := .stopped }
      token := some { isPaused := false, isStopped := true } }

/-- Validation failures of `startJob`, surfaced synchronously to the caller
as a `toast.error` before any state mutation. -/
inductive StartError
  | noRecipients
  | missingFields
  | missingEventName
  | invalidJson
deriving DecidableEq, Repr

/-- The run parameters captured by `startJob`: the parsed recipient list and
the `job.delay` value of the record read at line 127. -/
def startParams (acc : Account) : RunParams :=
  ⟨parseEmails (getJob acc).emailList, (getJob acc).delay⟩

/-- The reset write of `startJob` (lines 141-148). -/
def startReset (acc : Account) : JobState :=
  { getJob acc with
    status := .processing
    results := []
    stats := ⟨0, 0⟩
    progress := ⟨0, (parseEmails (getJob acc).emailList).length⟩
    elapsedSeconds := 0
    countdown := 0 }

/-- `startJob` of `BulkJobContext.tsx` (lines 126-257) up to its first
suspension: parse and validate (lines 128-137, before any mutation), then
register a fresh token, reset the job record (lines 139-148) and run
iteration 0 synchronously to the first `await`.  Returns the updated account
plus either the synchronous validation error or the started run. -/
def startJob (acc : Account) : Account × (StartError ⊕ (RunParams × Sys)) :=
  if (parseEmails (getJob acc).emailList).length = 0 then
    (acc, .inl .noRecipients)
  else if (getJob acc).subject = "" ∨ (getJob acc).content = "" then
    (acc, .inl .missingFields)
  else
    ({ job := some (iterTop (startParams acc) ⟨false, false⟩ 0 (startReset acc)).1
       token := some ⟨false, false⟩ },
     .inr (startParams acc,
       { job := (iterTop (startParams acc) ⟨false, false⟩ 0 (startReset acc)).1
         ctrl := ⟨false, false⟩
         pc := (iterTop (startParams acc) ⟨false, false⟩ 0 (startReset acc)).2 }))

/-- The `TrackJobState` record of the bulk track-event run loop
(`src/unnamed/part_000`). -/
structure TrackJobState where
  emailList : String
  eventName : String
  eventData : String
  delay : Nat
  status : JStatus
  progress : Progress
  results : List SendResult
  stats : Stats
  elapsedSeconds : Nat
  countdown : Nat
deriving DecidableEq, Repr

/-- The default track job record of the source. -/
def defaultTrackJobState : TrackJobState :=
  { emailList := ""
    eventName := ""
    eventData := "\x7b\x7d"
    delay := 1
    status := .idle
    progress := ⟨0, 0⟩
    results := []
    stats := ⟨0, 0⟩
    elapsedSeconds := 0
    countdown := 0 }

/-- Per-account slice of the track-event provider state. -/
structure TrackAccount where
  job : Option TrackJobState
  token : Option Ctrl
deriving DecidableEq, Repr

/-- `getJob` of the track-event provider. -/
def getTrackJob (acc : TrackAccount) : TrackJobState :=
  acc.job.getD defaultTrackJobState

/-- `startJob` of the track-event run loop (part_000 lines 116-148) through
validation and the initial reset: recipient parse, required event name,
`JSON.parse` of the custom-fields text (or of an empty object literal when
the text is blank) with parse success supplied by the
external oracle `jsonOk`.  All checks precede any state mutation; on success
a fresh token is registered and the job record is reset. -/
def startTrackJob (jsonOk : String → Bool) (acc : TrackAccount) :
    TrackAccount × (StartError ⊕ List String) :=
  if (parseEmails (getTrackJob acc).emailList).length = 0 then
    (acc, .inl .noRecipients)
  else if (getTrackJob acc).eventName = "" then
    (acc, .inl .missingEventName)
  else if jsonOk (if (getTrackJob acc).eventData = "" then "\x7b\x7d"
                  else (getTrackJob acc).eventData)
  then
    ({ job := some
        { getTrackJob acc with
          status := .processing
          results := []
          stats := ⟨0, 0⟩
          progress := ⟨0, (parseEmails (getTrackJob acc).emailList).length⟩
          elapsedSeconds := 0
          countdown := 0 }
       token := some ⟨false, false⟩ },
     .inr (parseEmails (getTrackJob acc).emailList))
  else (acc, .inl .invalidJson)

/-! ### Helper lemmas about the loop blocks -/

/-- Iteration 0 under the fresh token runs straight to the first fetch. -/
theorem iterTop_fresh (P : RunParams) (job : JobState) :
    iterTop P ⟨false, false⟩ 0 job = (job, .net 0) := by
  simp [iterTop, afterPauseBlock, delayEnter, fetchBlock]

/-- `finishBlock` never touches the counters. -/
theorem finishBlock_counters (ctrl : Ctrl) (j : JobState) :
    (finishBlock ctrl j).1.stats = j.stats ∧
    (finishBlock ctrl j).1.progress = j.progress ∧
    (finishBlock ctrl j).1.results = j.results := by
  unfold finishBlock; split <;> simp

/-- `fetchBlock` never touches the counters. -/
theorem fetchBlock_counters (ctrl : Ctrl) (i : Nat) (j : JobState) :
    (fetchBlock ctrl i j).1.stats = j.stats ∧
    (fetchBlock ctrl i j).1.progress = j.progress ∧
    (fetchBlock ctrl i j).1.results = j.results := by
  unfold fetchBlock finishBlock; split_ifs <;> simp

/-- `delayExitBlock` never touches the counters. -/
theorem delayExitBlock_counters (ctrl : Ctrl) (i : Nat) (j : JobState) :
    (delayExitBlock ctrl i j).1.stats = j.stats ∧
    (delayExitBlock ctrl i j).1.progress = j.progress ∧
    (delayExitBlock ctrl i j).1.results = j.results := by
  unfold delayExitBlock
  have h := fetchBlock_counters ctrl i { j with status := .processing, countdown := 0 }
  simpa using h

/-- `delayIter` never touches the counters. -/
theorem delayIter_counters (ctrl : Ctrl) (i rem : Nat) (j : JobState) :
    (delayIter ctrl i rem j).1.stats = j.stats ∧
    (delayIter ctrl i rem j).1.progress = j.progress ∧
    (delayIter ctrl i rem j).1.results = j.results := by
  unfold delayIter
  split
  · split
    · exact delayExitBlock_counters ctrl i j
    · split <;> simp [delayExitBlock_counters]
  · exact delayExitBlock_counters ctrl i j

/-- `delayEnter` never touches the counters. -/
theorem delayEnter_counters (P : RunParams) (ctrl : Ctrl) (i : Nat)
    (j : JobState) :
    (delayEnter P ctrl i j).1.stats = j.stats ∧
    (delayEnter P ctrl i j).1.progress = j.progress ∧
    (delayEnter P ctrl i j).1.results = j.results := by
  unfold delayEnter
  split
  · have h := delayIter_counters ctrl i P.delay
      { j with status := .waiting, countdown := P.delay }
    simpa using h
  · exact fetchBlock_counters ctrl i j

/-- `afterPauseBlock` never touches the counters. -/
theorem afterPauseBlock_counters (P : RunParams) (ctrl : Ctrl) (i : Nat)
    (j : JobState) :
    (afterPauseBlock P ctrl i j).1.stats = j.stats ∧
    (afterPauseBlock P ctrl i j).1.progress = j.progress ∧
    (afterPauseBlock P ctrl i j).1.results = j.results := by
  unfold afterPauseBlock
  split
  · exact finishBlock_counters ctrl j
  · exact delayEnter_counters P ctrl i j

/-- `iterTop` never touches the counters. -/
theorem iterTop_counters (P : RunParams) (ctrl : Ctrl) (i : Nat)
    (j : JobState) :
    (iterTop P ctrl i j).1.stats = j.stats ∧
    (iterTop P ctrl i j).1.progress = j.progress ∧
    (iterTop P ctrl i j).1.results = j.results := by
  unfold iterTop
  split
  · have h := finishBlock_counters ctrl { j with status := .stopped }
    simpa using h
  · split
    · simp
    · exact afterPauseBlock_counters P ctrl i j

/-- `wakePauseA` never touches the counters. -/
theorem wakePauseA_counters (P : RunParams) (ctrl : Ctrl) (i : Nat)
    (j : JobState) :
    (wakePauseA P ctrl i j).1.stats = j.stats ∧
    (wakePauseA P ctrl i j).1.progress = j.progress ∧
    (wakePauseA P ctrl i j).1.results = j.results := by
  unfold wakePauseA
  split
  · split
    · exact afterPauseBlock_counters P ctrl i j
    · simp
  · exact afterPauseBlock_counters P ctrl i j

/-- `wakePauseB` never touches the counters. -/
theorem wakePauseB_counters (ctrl : Ctrl) (i rem : Nat) (j : JobState) :
    (wakePauseB ctrl i rem j).1.stats = j.stats ∧
    (wakePauseB ctrl i rem j).1.progress = j.progress ∧
    (wakePauseB ctrl i rem j).1.results = j.results := by
  unfold wakePauseB; split <;> simp

/-- `wakeSleep` never touches the counters. -/
theorem wakeSleep_counters (ctrl : Ctrl) (i rem : Nat) (j : JobState) :
    (wakeSleep ctrl i rem j).1.stats = j.stats ∧
    (wakeSleep ctrl i rem j).1.progress = j.progress ∧
    (wakeSleep ctrl i rem j).1.results = j.results := by
  unfold wakeSleep
  have h := delayIter_counters ctrl i (rem - 1) { j with countdown := rem - 1 }
  simpa using h

/-- Where `fetchBlock` can suspend. -/
theorem fetchBlock_pc (ctrl : Ctrl) (i : Nat) (j : JobState) :
    (fetchBlock ctrl i j).2 = .done ∨ (fetchBlock ctrl i j).2 = .net i := by
  unfold fetchBlock finishBlock; split_ifs <;> simp

/-- Where `delayIter` can suspend. -/
theorem delayIter_pc (ctrl : Ctrl) (i rem : Nat) (j : JobState) :
    (delayIter ctrl i rem j).2 = .done ∨
    (delayIter ctrl i rem j).2 = .pauseB i rem ∨
    (delayIter ctrl i rem j).2 = .sleep i rem ∨
    (delayIter ctrl i rem j).2 = .net i := by
  unfold delayIter delayExitBlock
  split
  · split
    · rcases fetchBlock_pc ctrl i { j with status := .processing, countdown := 0 }
        with h | h <;> simp [h]
    · split <;> simp
  · rcases fetchBlock_pc ctrl i { j with status := .processing, countdown := 0 }
      with h | h <;> simp [h]

/-- `finishBlock` always returns to `done`. -/
theorem finishBlock_pc (ctrl : Ctrl) (j : JobState) :
    (finishBlock ctrl j).2 = .done := by
  unfold finishBlock; split <;> simp

/-- Where `delayEnter` can suspend. -/
theorem delayEnter_pc (P : RunParams) (ctrl : Ctrl) (i : Nat) (j : JobState) :
    (delayEnter P ctrl i j).2 = .done ∨
    (delayEnter P ctrl i j).2 = .pauseB i P.delay ∨
    (delayEnter P ctrl i j).2 = .sleep i P.delay ∨
    (delayEnter P ctrl i j).2 = .net i := by
  unfold delayEnter
  split
  · rcases delayIter_pc ctrl i P.delay
      { j with status := .waiting, countdown := P.delay }
      with h | h | h | h <;> simp [h]
  · rcases fetchBlock_pc ctrl i j with h | h <;> simp [h]

/-- Where `afterPauseBlock` can suspend. -/
theorem afterPauseBlock_pc (P : RunParams) (ctrl : Ctrl) (i : Nat)
    (j : JobState) :
    (afterPauseBlock P ctrl i j).2 = .done ∨
    (afterPauseBlock P ctrl i j).2 = .pauseB i P.delay ∨
    (afterPauseBlock P ctrl i j).2 = .sleep i P.delay ∨
    (afterPauseBlock P ctrl i j).2 = .net i := by
  unfold afterPauseBlock
  split
  · simp [finishBlock_pc]
  · exact delayEnter_pc P ctrl i j

/-- Where `iterTop` can suspend. -/
theorem iterTop_pc (P : RunParams) (ctrl : Ctrl) (i : Nat) (j : JobState) :
    (iterTop P ctrl i j).2 = .done ∨
    (iterTop P ctrl i j).2 = .pauseA i ∨
    (iterTop P ctrl i j).2 = .pauseB i P.delay ∨
    (iterTop P ctrl i j).2 = .sleep i P.delay ∨
    (iterTop P ctrl i j).2 = .net i := by
  unfold iterTop
  split
  · simp [finishBlock_pc]
  · split
    · simp
    · rcases afterPauseBlock_pc P ctrl i j with h | h | h | h <;> simp [h]

/-- Where the pre-delay pause wake-up can suspend. -/
theorem wakePauseA_pc (P : RunParams) (ctrl : Ctrl) (i : Nat) (j : JobState) :
    (wakePauseA P ctrl i j).2 = .done ∨
    (wakePauseA P ctrl i j).2 = .pauseA i ∨
    (wakePauseA P ctrl i j).2 = .pauseB i P.delay ∨
    (wakePauseA P ctrl i j).2 = .sleep i P.delay ∨
    (wakePauseA P ctrl i j).2 = .net i := by
  unfold wakePauseA
  split
  · split
    · rcases afterPauseBlock_pc P ctrl i j with h | h | h | h <;> simp [h]
    · simp
  · rcases afterPauseBlock_pc P ctrl i j with h | h | h | h <;> simp [h]

/-- Where the in-countdown pause wake-up can suspend. -/
theorem wakePauseB_pc (ctrl : Ctrl) (i rem : Nat) (j : JobState) :
    (wakePauseB ctrl i rem j).2 = .pauseB i rem ∨
    (wakePauseB ctrl i rem j).2 = .sleep i rem := by
  unfold wakePauseB; split <;> simp

/-- Where the countdown-sleep wake-up can suspend. -/
theorem wakeSleep_pc (ctrl : Ctrl) (i rem : Nat) (j : JobState) :
    (wakeSleep ctrl i rem j).2 = .done ∨
    (wakeSleep ctrl i rem j).2 = .pauseB i (rem - 1) ∨
    (wakeSleep ctrl i rem j).2 = .sleep i (rem - 1) ∨
    (wakeSleep ctrl i rem j).2 = .net i := by
  unfold wakeSleep
  rcases delayIter_pc ctrl i (rem - 1) { j with countdown := rem - 1 }
    with h | h | h | h <;> simp [h]

/-- Under an unstopped token the fetch is always dispatched. -/
theorem fetchBlock_not_stopped (ctrl : Ctrl) (i : Nat) (j : JobState)
    (hs : ctrl.isStopped = false) :
    fetchBlock ctrl i j = (j, .net i) := by
  unfold fetchBlock; simp [hs]

/-- Under an unstopped token `delayIter` never terminates the run. -/
theorem delayIter_ne_done (ctrl : Ctrl) (i rem : Nat) (j : JobState)
    (hs : ctrl.isStopped = false) :
    (delayIter ctrl i rem j).2 ≠ .done := by
  unfold delayIter delayExitBlock
  split_ifs <;>
    simp_all [fetchBlock_not_stopped ctrl i _ hs]

/-- A run loop only terminates after observing a stopped token (or after the
recipient list is exhausted, handled separately at `wakeNet`). -/
theorem iterTop_ne_done (P : RunParams) (ctrl : Ctrl) (i : Nat) (j : JobState)
    (hs : ctrl.isStopped = false) :
    (iterTop P ctrl i j).2 ≠ .done := by
  unfold iterTop afterPauseBlock delayEnter
  split_ifs <;>
    simp_all [fetchBlock_not_stopped ctrl i _ hs,
      delayIter_ne_done ctrl i P.delay _ hs]

/-- Unfolding of a successful `startJob`: the run parameters are the parsed
recipients and the captured delay, the token is fresh, the job record is
reset, and the loop suspends at the fetch of recipient 0. -/
theorem startJob_inr (acc acc' : Account) (P : RunParams) (s : Sys)
    (h : startJob acc = (acc', Sum.inr (P, s))) :
    P.emails = parseEmails (getJob acc).emailList ∧
    P.delay = (getJob acc).delay ∧
    s.ctrl = ⟨false, false⟩ ∧
    s.pc = .net 0 ∧
    s.job = startReset acc ∧
    0 < P.emails.length := by
  unfold startJob at h
  by_cases h0 : (parseEmails (getJob acc).emailList).length = 0
  · simp [h0] at h
  · by_cases h1 : (getJob acc).subject = "" ∨ (getJob acc).content = ""
    · simp [h0, h1] at h
    · rw [if_neg h0, if_neg h1, iterTop_fresh] at h
      have h2 : Sum.inr (α := StartError) (startParams acc,
          ({ job := startReset acc, ctrl := ⟨false, false⟩,
             pc := .net 0 } : Sys)) = Sum.inr (P, s) :=
        congrArg Prod.snd h
      rw [Sum.inr.injEq, Prod.mk.injEq] at h2
      obtain ⟨hP, hs⟩ := h2
      subst hP
      subst hs
      refine ⟨rfl, rfl, rfl, rfl, rfl, ?_⟩
      exact Nat.pos_of_ne_zero h0

/-! ### The counter invariant (claim C1) -/

/-- Relation between the suspension point and `progress.current`: inside the
loop the current count is the iteration index, which is in range; after the
loop it is at most the recipient count. -/
def pcCur (P : RunParams) : Susp → Nat → Prop
  | .pauseA i, c => c = i ∧ i < P.emails.length
  | .pauseB i _, c => c = i ∧ i < P.emails.length
  | .sleep i _, c => c = i ∧ i < P.emails.length
  | .net i, c => c = i ∧ i < P.emails.length
  | .done, c => c ≤ P.emails.length

/-- The counter invariant of a run: the stats sum, `progress.current` and
the results length agree, `progress.total` is the recipient count, and
`progress.current` matches the suspension point. -/
def counterInv (P : RunParams) (s : Sys) : Prop :=
  s.job.stats.success + s.job.stats.fail = s.job.progress.current ∧
  s.job.progress.current = s.job.results.length ∧
  s.job.progress.total = P.emails.length ∧
  pcCur P s.pc s.job.progress.current

/-- Build `pcCur` from a case split over the possible suspension points of a
block result. -/
theorem pcCur_cases (P : RunParams) (i c r1 r2 : Nat) (p : Susp)
    (hc : c = i) (hi : i < P.emails.length)
    (hp : p = .done ∨ p = .pauseA i ∨ p = .pauseB i r1 ∨
      p = .sleep i r2 ∨ p = .net i) :
    pcCur P p c := by
  rcases hp with hp | hp | hp | hp | hp <;> subst hp <;>
    simp [pcCur, hc, hi, Nat.le_of_lt hi]

/-- A block that leaves the counters of the current record untouched and
suspends at the same iteration index preserves the counter invariant. -/
theorem counterInv_carry (P : RunParams) (s : Sys) (jp : JobState × Susp)
    (i r1 r2 : Nat)
    (h : counterInv P s)
    (hc : s.job.progress.current = i) (hi : i < P.emails.length)
    (e1 : jp.1.stats = s.job.stats) (e2 : jp.1.progress = s.job.progress)
    (e3 : jp.1.results = s.job.results)
    (hp : jp.2 = .done ∨ jp.2 = .pauseA i ∨ jp.2 = .pauseB i r1 ∨
      jp.2 = .sleep i r2 ∨ jp.2 = .net i) :
    counterInv P (applyBlk s jp) := by
  obtain ⟨h1, h2, h3, -⟩ := h
  refine ⟨?_, ?_, ?_, ?_⟩
  · show jp.1.stats.success + jp.1.stats.fail = jp.1.progress.current
    rw [e1, e2]; exact h1
  · show jp.1.progress.current = jp.1.results.length
    rw [e2, e3]; exact h2
  · show jp.1.progress.total = P.emails.length
    rw [e2]; exact h3
  · show pcCur P jp.2 jp.1.progress.current
    rw [e2]
    exact pcCur_cases P i _ r1 r2 jp.2 hc hi hp

/-- Every scheduling step preserves the counter invariant. -/
theorem counterInv_step (P : RunParams) (s : Sys) (e : Ev)
    (h : counterInv P s) : counterInv P (sysStep P s e) := by
  obtain ⟨job, ctrl, pc⟩ := s
  cases e with
  | timer =>
    cases pc with
    | pauseA i =>
      have h4 : job.progress.current = i ∧ i < P.emails.length := h.2.2.2
      obtain ⟨e1, e2, e3⟩ := wakePauseA_counters P ctrl i job
      exact counterInv_carry P _ _ i P.delay P.delay h h4.1 h4.2 e1 e2 e3
        (wakePauseA_pc P ctrl i job)
    | pauseB i rem =>
      have h4 : job.progress.current = i ∧ i < P.emails.length := h.2.2.2
      obtain ⟨e1, e2, e3⟩ := wakePauseB_counters ctrl i rem job
      rcases wakePauseB_pc ctrl i rem job with hp | hp
      · exact counterInv_carry P _ _ i rem rem h h4.1 h4.2 e1 e2 e3
          (Or.inr (Or.inr (Or.inl hp)))
      · exact counterInv_carry P _ _ i rem rem h h4.1 h4.2 e1 e2 e3
          (Or.inr (Or.inr (Or.inr (Or.inl hp))))
    | sleep i rem =>
      have h4 : job.progress.current = i ∧ i < P.emails.length := h.2.2.2
      obtain ⟨e1, e2, e3⟩ := wakeSleep_counters ctrl i rem job
      rcases wakeSleep_pc ctrl i rem job with hp | hp | hp | hp
      · exact counterInv_carry P _ _ i (rem - 1) (rem - 1) h h4.1 h4.2
          e1 e2 e3 (Or.inl hp)
      · exact counterInv_carry P _ _ i (rem - 1) (rem - 1) h h4.1 h4.2
          e1 e2 e3 (Or.inr (Or.inr (Or.inl hp)))
      · exact counterInv_carry P _ _ i (rem - 1) (rem - 1) h h4.1 h4.2
          e1 e2 e3 (Or.inr (Or.inr (Or.inr (Or.inl hp))))
      · exact counterInv_carry P _ _ i (rem - 1) (rem - 1) h h4.1 h4.2
          e1 e2 e3 (Or.inr (Or.inr (Or.inr (Or.inr hp))))
    | net i => exact h
    | done => exact h
  | netRes o =>
    cases pc with
    | net i =>
      obtain ⟨hc, hi⟩ :
          job.progress.current = i ∧ i < P.emails.length := h.2.2.2
      obtain ⟨h1, h2, h3, -⟩ := h
      dsimp only at h1 h2 h3 hc hi
      have hj : (recordOutcome i (P.emails.getD i "") o job).stats.success +
            (recordOutcome i (P.emails.getD i "") o job).stats.fail = i + 1 ∧
          (recordOutcome i (P.emails.getD i "") o job).progress.current =
            i + 1 ∧
          (recordOutcome i (P.emails.getD i "") o job).results.length =
            i + 1 ∧
          (recordOutcome i (P.emails.getD i "") o job).progress.total =
            P.emails.length := by
        cases o <;> simp [recordOutcome] <;> omega
      dsimp only [sysStep]
      by_cases hlt : i + 1 < P.emails.length
      · have hw : wakeNet P ctrl i o job =
            iterTop P ctrl (i + 1) (recordOutcome i (P.emails.getD i "") o job) := by
          unfold wakeNet; rw [if_pos hlt]
        rw [hw]
        dsimp only [applyBlk]
        obtain ⟨f1, f2, f3⟩ :=
          iterTop_counters P ctrl (i + 1)
            (recordOutcome i (P.emails.getD i "") o job)
        refine ⟨?_, ?_, ?_, ?_⟩
        · show _ + _ = _
          rw [f1, f2]
          exact hj.1.trans hj.2.1.symm
        · show _ = _
          rw [f2, f3]
          exact hj.2.1.trans hj.2.2.1.symm
        · show _ = _
          rw [f2]
          exact hj.2.2.2
        · show pcCur P _ _
          rw [f2]
          exact pcCur_cases P (i + 1) _ P.delay P.delay _ hj.2.1 hlt
            (iterTop_pc P ctrl (i + 1) _)
      · have hw : wakeNet P ctrl i o job =
            finishBlock ctrl (recordOutcome i (P.emails.getD i "") o job) := by
          unfold wakeNet; rw [if_neg hlt]
        rw [hw]
        dsimp only [applyBlk]
        obtain ⟨f1, f2, f3⟩ :=
          finishBlock_counters ctrl (recordOutcome i (P.emails.getD i "") o job)
        refine ⟨?_, ?_, ?_, ?_⟩
        · show _ + _ = _
          rw [f1, f2]
          exact hj.1.trans hj.2.1.symm
        · show _ = _
          rw [f2, f3]
          exact hj.2.1.trans hj.2.2.1.symm
        · show _ = _
          rw [f2]
          exact hj.2.2.2
        · show pcCur P _ _
          rw [f2, finishBlock_pc ctrl _, hj.2.1]
          show i + 1 ≤ P.emails.length
          omega
    | pauseA i => exact h
    | pauseB i rem => exact h
    | sleep i rem => exact h
    | done => exact h
  | pauseCmd => exact ⟨h.1, h.2.1, h.2.2.1, h.2.2.2⟩
  | resumeCmd => exact ⟨h.1, h.2.1, h.2.2.1, h.2.2.2⟩
  | stopCmd => exact ⟨h.1, h.2.1, h.2.2.1, h.2.2.2⟩
  | tick =>
    dsimp only [sysStep]
    split
    · exact ⟨h.1, h.2.1, h.2.2.1, h.2.2.2⟩
    · exact ⟨h.1, h.2.1, h.2.2.1, h.2.2.2⟩

/-! ### Claim theorems -/

/-- C10: with no run-control token (no `startJob` ever ran for the account),
`pauseJob`, `resumeJob` and `stopJob` are complete no-ops — the jobs mapping
is unchanged and no status write occurs, in particular `resumeJob` does not
set status `processing`; once a token exists it is never removed (the guard
passes forever), so `pauseJob` and `resumeJob` issued after a run reached
`completed` or `stopped` still overwrite the terminal status with `paused`
or `processing`. -/
theorem c10_token_guard
    (acc acc2 : Account) (c : Ctrl)
    (hnone : acc.token = none)
    (hsome : acc2.token = some c)
    (_hterm : (getJob acc2).status = .completed ∨
      (getJob acc2).status = .stopped) :
    pauseJob acc = acc ∧ resumeJob acc = acc ∧ stopJob acc = acc ∧
    (pauseJob acc2).job = some { getJob acc2 with status := .paused } ∧
    (resumeJob acc2).job = some { getJob acc2 with status := .processing } ∧
    (pauseJob acc2).token = some { c with isPaused := true } ∧
    (resumeJob acc2).token = some { c with isPaused := false } ∧
    (stopJob acc2).token = some ⟨false, true⟩ ∧
    (startJob acc2).1.token ≠ none := by
  refine ⟨?_, ?_, ?_, ?_, ?_, ?_, ?_, ?_, ?_⟩
  · unfold pauseJob; rw [hnone]
  · unfold resumeJob; rw [hnone]
  · unfold stopJob; rw [hnone]
  · unfold pauseJob; rw [hsome]
  · unfold resumeJob; rw [hsome]
  · unfold pauseJob; rw [hsome]
  · unfold resumeJob; rw [hsome]
  · unfold stopJob; rw [hsome]
  · unfold startJob; split_ifs <;> simp [hsome]

/-- Witness for C10 at concrete accounts. -/
theorem c10_token_guard_witness :
    pauseJob ⟨some defaultJobState, none⟩ = ⟨some defaultJobState, none⟩ ∧
    (pauseJob ⟨some { defaultJobState with status := .completed },
        some ⟨false, false⟩⟩).job =
      some { defaultJobState with status := .paused } := by
  have h := c10_token_guard ⟨some defaultJobState, none⟩
    ⟨some { defaultJobState with status := .completed }, some ⟨false, false⟩⟩
    ⟨false, false⟩ rfl rfl (Or.inl rfl)
  exact ⟨h.1, h.2.2.2.1⟩

/-- C3: whenever `startJob` fails validation (empty parsed recipient list;
for a send job a missing subject or content; for a track job a missing event
name or non-parsing custom-fields text), it returns synchronously with a
`StartError` and the account state — job record and run-control token —
exactly as it was, having made no network call (no run is produced). -/
theorem c3_validation_leaves_state
    (acc : Account) (tacc : TrackAccount) (jsonOk : String → Bool) :
    ((parseEmails (getJob acc).emailList = [] ∨ (getJob acc).subject = "" ∨
        (getJob acc).content = "") →
      ∃ e, startJob acc = (acc, Sum.inl e)) ∧
    ((parseEmails (getTrackJob tacc).emailList = [] ∨
        (getTrackJob tacc).eventName = "" ∨
        ((getTrackJob tacc).eventData ≠ "" ∧
          jsonOk (getTrackJob tacc).eventData = false)) →
      ∃ e, startTrackJob jsonOk tacc = (tacc, Sum.inl e)) := by
  constructor
  · intro h
    by_cases h0 : (parseEmails (getJob acc).emailList).length = 0
    · exact ⟨.noRecipients, by unfold startJob; rw [if_pos h0]⟩
    · have h1 : (getJob acc).subject = "" ∨ (getJob acc).content = "" := by
        rcases h with h | h | h
        · exact absurd (by rw [h]; rfl) h0
        · exact Or.inl h
        · exact Or.inr h
      exact ⟨.missingFields, by unfold startJob; rw [if_neg h0, if_pos h1]⟩
  · intro h
    by_cases h0 : (parseEmails (getTrackJob tacc).emailList).length = 0
    · exact ⟨.noRecipients, by unfold startTrackJob; rw [if_pos h0]⟩
    · by_cases h1 : (getTrackJob tacc).eventName = ""
      · exact ⟨.missingEventName, by
          unfold startTrackJob; rw [if_neg h0, if_pos h1]⟩
      · have h2 : (getTrackJob tacc).eventData ≠ "" ∧
            jsonOk (getTrackJob tacc).eventData = false := by
          rcases h with h | h | h
          · exact absurd (by rw [h]; rfl) h0
          · exact absurd h h1
          · exact h
        have hcond : jsonOk (if (getTrackJob tacc).eventData = "" then
            "\x7b\x7d" else (getTrackJob tacc).eventData) = false := by
          rw [if_neg h2.1]; exact h2.2
        exact ⟨.invalidJson, by
          unfold startTrackJob
          rw [if_neg h0, if_neg h1, hcond]
          simp⟩

/-- Witness for C3 at concrete accounts (blank content on the send side, a
custom-fields text rejected by the parse oracle on the track side). -/
theorem c3_validation_leaves_state_witness :
    (∃ e, startJob ⟨some { defaultJobState with
                           emailList := "a@x.com", subject := "s" }, none⟩ =
      (⟨some { defaultJobState with emailList := "a@x.com", subject := "s" },
        none⟩, Sum.inl e)) ∧
    (∃ e, startTrackJob (fun _ => false)
        ⟨some { defaultTrackJobState with
                emailList := "a@x.com", eventName := "ev",
                eventData := "not json" }, none⟩ =
      (⟨some { defaultTrackJobState with
               emailList := "a@x.com", eventName := "ev",
               eventData := "not json" }, none⟩, Sum.inl e)) := by
  have h := c3_validation_leaves_state
    ⟨some { defaultJobState with emailList := "a@x.com", subject := "s" },
      none⟩
    ⟨some { defaultTrackJobState with
            emailList := "a@x.com", eventName := "ev",
            eventData := "not json" }, none⟩
    (fun _ => false)
  exact ⟨h.1 (Or.inr (Or.inr rfl)),
    h.2 (Or.inr (Or.inr ⟨by decide, rfl⟩))⟩

/-- C2: `startJob` parses the recipient text by splitting on newlines,
trimming and dropping empty lines in order; on successful validation the
started run has `results` empty, `stats` zero, `progress.current`,
`elapsedSeconds`, `countdown` zero, `progress.total` the parsed count, and
status `processing`; the newline-join of
`["a@x.com", "", " b@x.com ", "\n", "c@x.com"]` parses to exactly
`["a@x.com", "b@x.com", "c@x.com"]`, giving `progress.total = 3`. -/
theorem c2_start_parse_and_reset
    (acc acc' : Account) (P : RunParams) (s : Sys)
    (h : startJob acc = (acc', Sum.inr (P, s))) :
    P.emails = parseEmails (getJob acc).emailList ∧
    parseEmails (String.intercalate "\n"
      ["a@x.com", "", " b@x.com ", "\n", "c@x.com"]) =
      ["a@x.com", "b@x.com", "c@x.com"] ∧
    s.job.status = .processing ∧
    s.job.results = [] ∧
    s.job.stats = ⟨0, 0⟩ ∧
    s.job.progress = ⟨0, P.emails.length⟩ ∧
    s.job.elapsedSeconds = 0 ∧
    s.job.countdown = 0 ∧
    ((getJob acc).emailList = String.intercalate "\n"
        ["a@x.com", "", " b@x.com ", "\n", "c@x.com"] →
      P.emails = ["a@x.com", "b@x.com", "c@x.com"] ∧
      s.job.progress.total = 3) := by
  obtain ⟨hP, -, -, -, hjob, -⟩ := startJob_inr acc acc' P s h
  refine ⟨hP, by decide, ?_, ?_, ?_, ?_, ?_, ?_, ?_⟩
  · rw [hjob]; rfl
  · rw [hjob]; rfl
  · rw [hjob]; rfl
  · rw [hjob, hP]; rfl
  · rw [hjob]; rfl
  · rw [hjob]; rfl
  · intro he
    constructor
    · rw [hP, he]; decide
    · rw [hjob]
      show (parseEmails (getJob acc).emailList).length = 3
      rw [he]; decide

/-- Witness for C2 at a concrete account holding exactly the newline-join of
the claim. -/
theorem c2_start_parse_and_reset_witness :
    (⟨["a@x.com", "b@x.com", "c@x.com"], 1⟩ : RunParams).emails =
      ["a@x.com", "b@x.com", "c@x.com"] ∧
    ({ emailList := "a@x.com\n\n b@x.com \n\n\nc@x.com", subject := "s",
       content := "c", fromEmail := "", fromName := "", delay := 1,
       status := .processing, progress := ⟨0, 3⟩, results := [],
       stats := ⟨0, 0⟩, elapsedSeconds := 0,
       countdown := 0 } : JobState).progress.total = 3 := by
  have h := c2_start_parse_and_reset
    ⟨some { defaultJobState with
            emailList := "a@x.com\n\n b@x.com \n\n\nc@x.com",
            subject := "s", content := "c" }, none⟩
    ⟨some { emailList := "a@x.com\n\n b@x.com \n\n\nc@x.com", subject := "s",
            content := "c", fromEmail := "", fromName := "", delay := 1,
            status := .processing, progress := ⟨0, 3⟩, results := [],
            stats := ⟨0, 0⟩, elapsedSeconds := 0, countdown := 0 },
     some ⟨false, false⟩⟩
    ⟨["a@x.com", "b@x.com", "c@x.com"], 1⟩
    ⟨{ emailList := "a@x.com\n\n b@x.com \n\n\nc@x.com", subject := "s",
       content := "c", fromEmail := "", fromName := "", delay := 1,
       status := .processing, progress := ⟨0, 3⟩, results := [],
       stats := ⟨0, 0⟩, elapsedSeconds := 0, countdown := 0 },
     ⟨false, false⟩, .net 0⟩
    (by decide)
  exact (h.2.2.2.2.2.2.2.2 (by decide))

/-- The counter invariant holds along every event trace. -/
theorem counterInv_run (P : RunParams) (s : Sys) (evs : List Ev)
    (h : counterInv P s) : counterInv P (runEvents P s evs) := by
  induction evs generalizing s with
  | nil => exact h
  | cons e evs ih => exact ih (sysStep P s e) (counterInv_step P s e h)

/-- A successful `startJob` establishes the counter invariant. -/
theorem counterInv_start (acc acc' : Account) (P : RunParams) (s : Sys)
    (h : startJob acc = (acc', Sum.inr (P, s))) : counterInv P s := by
  obtain ⟨hP, -, -, hpc, hjob, hpos⟩ := startJob_inr acc acc' P s h
  refine ⟨?_, ?_, ?_, ?_⟩
  · rw [hjob]; rfl
  · rw [hjob]; rfl
  · rw [hjob, hP]; rfl
  · rw [hpc, hjob]
    show (0 : Nat) = 0 ∧ 0 < P.emails.length
    exact ⟨rfl, hpos⟩

/-- C1: at every observed instant after a run has started — that is, in
every state reachable from a successful `startJob` by any interleaving of
timer wake-ups, network resolutions, user commands and ticker events —
`stats.success + stats.fail = progress.current = length results` and
`progress.current ≤ progress.total`; moreover each per-recipient outcome
recording (success or error branch) updates all three together in one
read-modify-write. -/
theorem c1_counters_agree
    (acc acc' : Account) (P : RunParams) (s0 : Sys) (evs : List Ev)
    (i : Nat) (em : String) (o : NetOutcome) (j : JobState)
    (h : startJob acc = (acc', Sum.inr (P, s0))) :
    ((runEvents P s0 evs).job.stats.success +
        (runEvents P s0 evs).job.stats.fail =
      (runEvents P s0 evs).job.progress.current ∧
     (runEvents P s0 evs).job.progress.current =
      (runEvents P s0 evs).job.results.length ∧
     (runEvents P s0 evs).job.progress.current ≤
      (runEvents P s0 evs).job.progress.total) ∧
    ((recordOutcome i em o j).progress.current = i + 1 ∧
     (recordOutcome i em o j).stats.success +
        (recordOutcome i em o j).stats.fail =
      j.stats.success + j.stats.fail + 1 ∧
     (recordOutcome i em o j).results.length = j.results.length + 1) := by
  have hinv := counterInv_run P s0 evs (counterInv_start acc acc' P s0 h)
  obtain ⟨h1, h2, h3, h4⟩ := hinv
  constructor
  · refine ⟨h1, h2, ?_⟩
    rw [h3]
    revert h4
    cases hp : (runEvents P s0 evs).pc <;> intro h4 <;>
      simp only [pcCur] at h4 <;> omega
  · cases o <;> simp [recordOutcome] <;> omega

/-- Witness for C1 on a concrete two-recipient run with one resolved
outcome, a pause and a tick. -/
theorem c1_counters_agree_witness :
    ((runEvents ⟨["a@x.com", "b@x.com"], 1⟩
        ⟨{ emailList := "a@x.com\nb@x.com", subject := "s", content := "c",
           fromEmail := "", fromName := "", delay := 1, status := .processing,
           progress := ⟨0, 2⟩, results := [], stats := ⟨0, 0⟩,
           elapsedSeconds := 0, countdown := 0 },
         ⟨false, false⟩, .net 0⟩
        [.netRes (.httpErr "bad"), .tick, .pauseCmd]).job.stats.success +
      (runEvents ⟨["a@x.com", "b@x.com"], 1⟩
        ⟨{ emailList := "a@x.com\nb@x.com", subject := "s", content := "c",
           fromEmail := "", fromName := "", delay := 1, status := .processing,
           progress := ⟨0, 2⟩, results := [], stats := ⟨0, 0⟩,
           elapsedSeconds := 0, countdown := 0 },
         ⟨false, false⟩, .net 0⟩
        [.netRes (.httpErr "bad"), .tick, .pauseCmd]).job.stats.fail =
      (runEvents ⟨["a@x.com", "b@x.com"], 1⟩
        ⟨{ emailList := "a@x.com\nb@x.com", subject := "s", content := "c",
           fromEmail := "", fromName := "", delay := 1, status := .processing,
           progress := ⟨0, 2⟩, results := [], stats := ⟨0, 0⟩,
           elapsedSeconds := 0, countdown := 0 },
         ⟨false, false⟩, .net 0⟩
        [.netRes (.httpErr "bad"), .tick, .pauseCmd]).job.progress.current) ∧
    (recordOutcome 0 "a@x.com" (.ok "r")
        { emailList := "a@x.com\nb@x.com", subject := "s", content := "c",
          fromEmail := "", fromName := "", delay := 1, status := .processing,
          progress := ⟨0, 2⟩, results := [], stats := ⟨0, 0⟩,
          elapsedSeconds := 0, countdown := 0 }).progress.current = 0 + 1 := by
  have h := c1_counters_agree
    ⟨some { defaultJobState with
            emailList := "a@x.com\nb@x.com",
            subject := "s", content := "c" }, none⟩
    ⟨some { emailList := "a@x.com\nb@x.com", subject := "s", content := "c",
            fromEmail := "", fromName := "", delay := 1, status := .processing,
            progress := ⟨0, 2⟩, results := [], stats := ⟨0, 0⟩,
            elapsedSeconds := 0, countdown := 0 },
     some ⟨false, false⟩⟩
    ⟨["a@x.com", "b@x.com"], 1⟩
    ⟨{ emailList := "a@x.com\nb@x.com", subject := "s", content := "c",
       fromEmail := "", fromName := "", delay := 1, status := .processing,
       progress := ⟨0, 2⟩, results := [], stats := ⟨0, 0⟩,
       elapsedSeconds := 0, countdown := 0 },
     ⟨false, false⟩, .net 0⟩
    [.netRes (.httpErr "bad"), .tick, .pauseCmd]
    0 "a@x.com" (.ok "r")
    { emailList := "a@x.com\nb@x.com", subject := "s", content := "c",
      fromEmail := "", fromName := "", delay := 1, status := .processing,
      progress := ⟨0, 2⟩, results := [], stats := ⟨0, 0⟩,
      elapsedSeconds := 0, countdown := 0 }
    (by decide)
  exact ⟨h.1.1, h.2.1⟩

/-- C4: when the provider call for recipient `i` fails — a non-2xx provider
response or a thrown network error — the run does not abort: the failure is
recorded as that recipient outcome with status `error` and a response that
is the raw provider error payload or the synthesized error object,
`stats.fail` grows by exactly one, `stats.success` is unchanged,
`progress.current` becomes the 1-based index `i + 1`, and (when recipients
remain and no stop was requested) the loop continues rather than
terminating. -/
theorem c4_recipient_failure_continues
    (P : RunParams) (s : Sys) (i : Nat) (o : NetOutcome)
    (hpc : s.pc = .net i)
    (herr : (∃ b, o = .httpErr b) ∨ (∃ m, o = .netErr m)) :
    (sysStep P s (.netRes o)).job.stats.fail = s.job.stats.fail + 1 ∧
    (sysStep P s (.netRes o)).job.stats.success = s.job.stats.success ∧
    (sysStep P s (.netRes o)).job.progress.current = i + 1 ∧
    (sysStep P s (.netRes o)).job.results =
      ⟨i + 1, P.emails.getD i "", .error, errResponse o⟩ :: s.job.results ∧
    (i + 1 < P.emails.length → s.ctrl.isStopped = false →
      (sysStep P s (.netRes o)).pc ≠ .done) := by
  obtain ⟨job, ctrl, pc⟩ := s
  subst hpc
  dsimp only [sysStep, applyBlk]
  have hrec : (recordOutcome i (P.emails.getD i "") o job).stats.fail =
        job.stats.fail + 1 ∧
      (recordOutcome i (P.emails.getD i "") o job).stats.success =
        job.stats.success ∧
      (recordOutcome i (P.emails.getD i "") o job).progress.current = i + 1 ∧
      (recordOutcome i (P.emails.getD i "") o job).results =
        ⟨i + 1, P.emails.getD i "", .error, errResponse o⟩ :: job.results := by
    rcases herr with ⟨b, hb⟩ | ⟨m, hm⟩ <;> subst_vars <;>
      simp [recordOutcome, errResponse]
  by_cases hlt : i + 1 < P.emails.length
  · have hw : wakeNet P ctrl i o job =
        iterTop P ctrl (i + 1) (recordOutcome i (P.emails.getD i "") o job) := by
      unfold wakeNet; rw [if_pos hlt]
    rw [hw]
    obtain ⟨f1, f2, f3⟩ :=
      iterTop_counters P ctrl (i + 1) (recordOutcome i (P.emails.getD i "") o job)
    refine ⟨?_, ?_, ?_, ?_, ?_⟩
    · rw [f1]; exact hrec.1
    · rw [f1]; exact hrec.2.1
    · rw [f2]; exact hrec.2.2.1
    · rw [f3]; exact hrec.2.2.2
    · intro _ hs
      exact fun hdone => iterTop_ne_done P ctrl (i + 1) _ hs hdone
  · have hw : wakeNet P ctrl i o job =
        finishBlock ctrl (recordOutcome i (P.emails.getD i "") o job) := by
      unfold wakeNet; rw [if_neg hlt]
    rw [hw]
    obtain ⟨f1, f2, f3⟩ :=
      finishBlock_counters ctrl (recordOutcome i (P.emails.getD i "") o job)
    refine ⟨?_, ?_, ?_, ?_, ?_⟩
    · rw [f1]; exact hrec.1
    · rw [f1]; exact hrec.2.1
    · rw [f2]; exact hrec.2.2.1
    · rw [f3]; exact hrec.2.2.2
    · intro hlt2 _
      exact absurd hlt2 hlt

/-- Witness for C4: recipient 2 of 3 fails with a network error while the
run is live. -/
theorem c4_recipient_failure_continues_witness :
    (sysStep ⟨["a@x.com", "b@x.com", "c@x.com"], 0⟩
        ⟨{ emailList := "a@x.com\nb@x.com\nc@x.com", subject := "s",
           content := "c", fromEmail := "", fromName := "", delay := 0,
           status := .processing, progress := ⟨1, 3⟩,
           results := [⟨1, "a@x.com", .success, "r1"⟩],
           stats := ⟨1, 0⟩, elapsedSeconds := 1, countdown := 0 },
         ⟨false, false⟩, .net 1⟩
        (.netRes (.netErr "boom"))).job.stats.fail = 0 + 1 ∧
    (sysStep ⟨["a@x.com", "b@x.com", "c@x.com"], 0⟩
        ⟨{ emailList := "a@x.com\nb@x.com\nc@x.com", subject := "s",
           content := "c", fromEmail := "", fromName := "", delay := 0,
           status := .processing, progress := ⟨1, 3⟩,
           results := [⟨1, "a@x.com", .success, "r1"⟩],
           stats := ⟨1, 0⟩, elapsedSeconds := 1, countdown := 0 },
         ⟨false, false⟩, .net 1⟩
        (.netRes (.netErr "boom"))).pc ≠ .done := by
  have h := c4_recipient_failure_continues
    ⟨["a@x.com", "b@x.com", "c@x.com"], 0⟩
    ⟨{ emailList := "a@x.com\nb@x.com\nc@x.com", subject := "s",
       content := "c", fromEmail := "", fromName := "", delay := 0,
       status := .processing, progress := ⟨1, 3⟩,
       results := [⟨1, "a@x.com", .success, "r1"⟩],
       stats := ⟨1, 0⟩, elapsedSeconds := 1, countdown := 0 },
     ⟨false, false⟩, .net 1⟩
    1 (.netErr "boom") rfl (Or.inr ⟨"boom", rfl⟩)
  exact ⟨h.1, h.2.2.2.2 (by decide) rfl⟩

/-! ### Wall-clock lower bound of an uninterrupted run (claim C5) -/

/-- Suspension points reachable in a run that is never paused or stopped. -/
def quietPc : Susp → Prop
  | .net _ => True
  | .sleep _ _ => True
  | .done => True
  | _ => False

/-- Remaining mandatory countdown seconds from a suspension point: every
later recipient of index above zero is preceded by a full `delay` countdown,
plus whatever remains of the current countdown. -/
def phi (P : RunParams) : Susp → Nat
  | .pauseA i => P.delay * (P.emails.length - i)
  | .pauseB i rem => rem + P.delay * (P.emails.length - 1 - i)
  | .sleep i rem => rem + P.delay * (P.emails.length - 1 - i)
  | .net i => P.delay * (P.emails.length - 1 - i)
  | .done => 0

/-- Under the fresh (unpaused, unstopped) token a positive countdown head
suspends into the 1000 ms sleep. -/
theorem delayIter_fresh (i rem : Nat) (j : JobState) (hr : 0 < rem) :
    delayIter ⟨false, false⟩ i rem j = (j, .sleep i rem) := by
  unfold delayIter; rw [if_pos hr]; simp

/-- Under the fresh token an exhausted countdown falls through to the fetch. -/
theorem delayIter_fresh_zero (i : Nat) (j : JobState) :
    delayIter ⟨false, false⟩ i 0 j =
      ({ j with status := .processing, countdown := 0 }, .net i) := by
  unfold delayIter delayExitBlock fetchBlock; simp

/-- Under the fresh token the delay phase of iteration `i` runs exactly when
`i > 0` and `delay > 0` (entering status `waiting` with the full countdown),
and otherwise the loop proceeds directly to the fetch. -/
theorem delayEnter_fresh (P : RunParams) (i : Nat) (j : JobState) :
    delayEnter P ⟨false, false⟩ i j =
      if 0 < i ∧ 0 < P.delay then
        ({ j with status := .waiting, countdown := P.delay }, .sleep i P.delay)
      else (j, .net i) := by
  unfold delayEnter
  split
  · next hcond => rw [delayIter_fresh i P.delay _ hcond.2]
  · next _hcond => rw [fetchBlock_not_stopped _ _ _ rfl]

/-- Under the fresh token the top of iteration `i` runs synchronously to the
countdown sleep (when a delay is due) or to the fetch. -/
theorem iterTop_fresh_general (P : RunParams) (i : Nat) (j : JobState) :
    iterTop P ⟨false, false⟩ i j =
      if 0 < i ∧ 0 < P.delay then
        ({ j with status := .waiting, countdown := P.delay }, .sleep i P.delay)
      else (j, .net i) := by
  unfold iterTop afterPauseBlock
  simp only [show (⟨false, false⟩ : Ctrl).isStopped = false from rfl,
    show (⟨false, false⟩ : Ctrl).isPaused = false from rfl]
  simpa using delayEnter_fresh P i j

/-- One never-paused, never-stopped step keeps the token fresh, stays in the
quiet suspension points, and pays at least the potential it consumes. -/
theorem quiet_step (P : RunParams) (s : Sys) (e : Ev)
    (hc : s.ctrl = ⟨false, false⟩) (hq : quietPc s.pc)
    (he : e ≠ .pauseCmd ∧ e ≠ .stopCmd) :
    (sysStep P s e).ctrl = ⟨false, false⟩ ∧ quietPc (sysStep P s e).pc ∧
    phi P s.pc ≤ evCost s e + phi P (sysStep P s e).pc := by
  obtain ⟨job, ctrl, pc⟩ := s
  have hc' : ctrl = ⟨false, false⟩ := hc
  subst hc'
  cases e with
  | timer =>
    cases pc with
    | pauseA i => exact absurd hq (by simp [quietPc])
    | pauseB i rem => exact absurd hq (by simp [quietPc])
    | sleep i rem =>
      dsimp only [sysStep, applyBlk]
      unfold wakeSleep
      by_cases h1 : 0 < rem - 1
      · rw [delayIter_fresh i (rem - 1) _ h1]
        refine ⟨rfl, trivial, ?_⟩
        dsimp [phi, evCost]
        generalize P.delay * (P.emails.length - 1 - i) = D
        omega
      · have h0 : rem - 1 = 0 := by omega
        rw [h0, delayIter_fresh_zero]
        refine ⟨rfl, trivial, ?_⟩
        dsimp [phi, evCost]
        generalize P.delay * (P.emails.length - 1 - i) = D
        omega
    | net i => exact ⟨rfl, hq, by dsimp [evCost, sysStep]; omega⟩
    | done => exact ⟨rfl, hq, by dsimp [evCost, sysStep]; omega⟩
  | netRes o =>
    cases pc with
    | pauseA i => exact absurd hq (by simp [quietPc])
    | pauseB i rem => exact absurd hq (by simp [quietPc])
    | sleep i rem => exact ⟨rfl, hq, by dsimp [evCost, sysStep]; omega⟩
    | done => exact ⟨rfl, hq, by dsimp [evCost, sysStep]; omega⟩
    | net i =>
      dsimp only [sysStep, applyBlk]
      unfold wakeNet
      by_cases hlt : i + 1 < P.emails.length
      · rw [if_pos hlt, iterTop_fresh_general]
        by_cases hd : 0 < P.delay
        · rw [if_pos ⟨Nat.succ_pos i, hd⟩]
          refine ⟨rfl, trivial, ?_⟩
          dsimp [phi, evCost]
          have hsplit : P.emails.length - 1 - i =
              (P.emails.length - 1 - (i + 1)) + 1 := by omega
          rw [hsplit, Nat.mul_add, Nat.mul_one]
          generalize P.delay * (P.emails.length - 1 - (i + 1)) = D
          omega
        · have hd0 : P.delay = 0 := by omega
          rw [if_neg (by simp [hd0])]
          refine ⟨rfl, trivial, ?_⟩
          dsimp [phi, evCost]
          simp [hd0]
      · rw [if_neg hlt]
        unfold finishBlock
        refine ⟨rfl, trivial, ?_⟩
        dsimp [phi, evCost]
        have hz : P.emails.length - 1 - i = 0 := by omega
        simp [hz]
  | pauseCmd => exact absurd rfl he.1
  | resumeCmd => exact ⟨rfl, hq, by dsimp [evCost, sysStep]; omega⟩
  | stopCmd => exact absurd rfl he.2
  | tick =>
    dsimp only [sysStep]
    split
    · exact ⟨rfl, hq, by dsimp [evCost]; omega⟩
    · exact ⟨rfl, hq, by dsimp [evCost]; omega⟩


/-- Over a never-paused, never-stopped trace the accumulated cost plus the
final potential dominates the initial potential. -/
theorem quiet_run (P : RunParams) (s : Sys) (evs : List Ev)
    (hc : s.ctrl = ⟨false, false⟩) (hq : quietPc s.pc)
    (he : ∀ e ∈ evs, e ≠ .pauseCmd ∧ e ≠ .stopCmd) :
    phi P s.pc ≤ runCost P s evs + phi P (runEvents P s evs).pc := by
  induction evs generalizing s with
  | nil =>
    dsimp [runCost, runEvents]
    omega
  | cons e evs ih =>
    have hstep := quiet_step P s e hc hq (he e (List.mem_cons_self e evs))
    have ih' := ih (sysStep P s e) hstep.1 hstep.2.1
      (fun x hx => he x (List.mem_cons_of_mem e hx))
    have h1 : phi P s.pc ≤ evCost s e + phi P (sysStep P s e).pc := hstep.2.2
    have h2 : runCost P s (e :: evs) =
        evCost s e + runCost P (sysStep P s e) evs := rfl
    have h3 : runEvents P s (e :: evs) =
        runEvents P (sysStep P s e) evs := rfl
    rw [h2, h3]
    omega

/-- C5: the inter-item delay runs only between consecutive recipients —
under the fresh token the delay phase of iteration `i` is entered exactly
when `i > 0` and `delay > 0`, and a started run suspends at the first fetch
with no countdown pending — so any uninterrupted run (no pause, no stop)
that completes spends at least `delay * (n - 1)` seconds of wall-clock time
in countdown sleeps. -/
theorem c5_delay_between_recipients
    (acc acc' : Account) (P : RunParams) (s0 : Sys) (evs : List Ev)
    (i : Nat) (j : JobState)
    (h : startJob acc = (acc', Sum.inr (P, s0)))
    (hevs : ∀ e ∈ evs, e ≠ .pauseCmd ∧ e ≠ .stopCmd)
    (hdone : (runEvents P s0 evs).pc = .done) :
    P.delay * (P.emails.length - 1) ≤ runCost P s0 evs ∧
    s0.pc = .net 0 ∧ s0.job.status = .processing ∧ s0.job.countdown = 0 ∧
    (delayEnter P ⟨false, false⟩ i j =
      if 0 < i ∧ 0 < P.delay then
        ({ j with status := .waiting, countdown := P.delay },
         .sleep i P.delay)
      else (j, .net i)) := by
  obtain ⟨-, -, hctrl, hpc, hjob, -⟩ := startJob_inr acc acc' P s0 h
  have hq : quietPc s0.pc := by rw [hpc]; trivial
  have hrun := quiet_run P s0 evs hctrl hq hevs
  rw [hpc, hdone] at hrun
  refine ⟨?_, hpc, ?_, ?_, delayEnter_fresh P i j⟩
  · have : phi P (.net 0) = P.delay * (P.emails.length - 1) := by
      dsimp [phi]
    rw [this] at hrun
    dsimp [phi] at hrun
    omega
  · rw [hjob]; rfl
  · rw [hjob]; rfl

/-- Witness for C5: a two-recipient run with one-second delay completes
after exactly one countdown-sleep second of cost. -/
theorem c5_delay_between_recipients_witness :
    1 * (2 - 1) ≤
      runCost ⟨["a@x.com", "b@x.com"], 1⟩
        ⟨{ emailList := "a@x.com\nb@x.com", subject := "s", content := "c",
           fromEmail := "", fromName := "", delay := 1, status := .processing,
           progress := ⟨0, 2⟩, results := [], stats := ⟨0, 0⟩,
           elapsedSeconds := 0, countdown := 0 },
         ⟨false, false⟩, .net 0⟩
        [.netRes (.ok "r"), .timer, .netRes (.ok "r")] := by
  have h := c5_delay_between_recipients
    ⟨some { defaultJobState with
            emailList := "a@x.com\nb@x.com",
            subject := "s", content := "c" }, none⟩
    ⟨some { emailList := "a@x.com\nb@x.com", subject := "s", content := "c",
            fromEmail := "", fromName := "", delay := 1, status := .processing,
            progress := ⟨0, 2⟩, results := [], stats := ⟨0, 0⟩,
            elapsedSeconds := 0, countdown := 0 },
     some ⟨false, false⟩⟩
    ⟨["a@x.com", "b@x.com"], 1⟩
    ⟨{ emailList := "a@x.com\nb@x.com", subject := "s", content := "c",
       fromEmail := "", fromName := "", delay := 1, status := .processing,
       progress := ⟨0, 2⟩, results := [], stats := ⟨0, 0⟩,
       elapsedSeconds := 0, countdown := 0 },
     ⟨false, false⟩, .net 0⟩
    [.netRes (.ok "r"), .timer, .netRes (.ok "r")]
    1 defaultJobState
    (by decide) (by decide) (by decide)
  exact h.1

/-! ### Stop during a countdown (claim C6) -/

/-- Once the token is stopped a loop parked in the countdown sleep
terminates without recording anything: the delay loop breaks, the exit write
runs, and the stop re-check writes `stopped` and skips the completion
write. -/
theorem delayIter_stopped (ctrl : Ctrl) (i rem : Nat) (j : JobState)
    (hs : ctrl.isStopped = true) :
    delayIter ctrl i rem j =
      ({ j with status := .stopped, countdown := 0 }, .done) := by
  unfold delayIter delayExitBlock fetchBlock finishBlock
  split_ifs <;> simp_all

/-- After a stop while the loop is in the countdown sleep: the token stays
stopped, the counters and results never change again, and the loop is either
still in the sleep or has terminated with status `stopped`. -/
def stopQuiet (base : JobState) (x : Sys) : Prop :=
  x.ctrl.isStopped = true ∧
  x.job.results = base.results ∧
  x.job.stats = base.stats ∧
  x.job.progress.current = base.progress.current ∧
  ((∃ i rem, x.pc = .sleep i rem) ∨ (x.pc = .done ∧ x.job.status = .stopped))

/-- `stopQuiet` is preserved by every event other than a pause or resume
command. -/
theorem stopQuiet_step (P : RunParams) (base : JobState) (x : Sys) (e : Ev)
    (h : stopQuiet base x) (he : e ≠ .pauseCmd ∧ e ≠ .resumeCmd) :
    stopQuiet base (sysStep P x e) := by
  obtain ⟨job, ctrl, pc⟩ := x
  obtain ⟨hs, h1, h2, h3, hp⟩ := h
  cases e with
  | timer =>
    rcases hp with ⟨i, rem, hpc⟩ | ⟨hpc, hst⟩ <;> subst hpc
    · dsimp only [sysStep, applyBlk]
      unfold wakeSleep
      rw [delayIter_stopped ctrl i (rem - 1) _ hs]
      exact ⟨hs, h1, h2, h3, Or.inr ⟨rfl, rfl⟩⟩
    · exact ⟨hs, h1, h2, h3, Or.inr ⟨rfl, hst⟩⟩
  | netRes o =>
    rcases hp with ⟨i, rem, hpc⟩ | ⟨hpc, hst⟩ <;> subst hpc
    · exact ⟨hs, h1, h2, h3, Or.inl ⟨i, rem, rfl⟩⟩
    · exact ⟨hs, h1, h2, h3, Or.inr ⟨rfl, hst⟩⟩
  | pauseCmd => exact absurd rfl he.1
  | resumeCmd => exact absurd rfl he.2
  | stopCmd =>
    refine ⟨rfl, h1, h2, h3, ?_⟩
    rcases hp with ⟨i, rem, hpc⟩ | ⟨hpc, hst⟩
    · exact Or.inl ⟨i, rem, hpc⟩
    · exact Or.inr ⟨hpc, rfl⟩
  | tick =>
    dsimp only [sysStep]
    split
    · exact ⟨hs, h1, h2, h3, hp⟩
    · exact ⟨hs, h1, h2, h3, hp⟩

/-- `stopQuiet` is preserved along traces without pause or resume. -/
theorem stopQuiet_run (P : RunParams) (base : JobState) (x : Sys)
    (evs : List Ev) (h : stopQuiet base x)
    (he : ∀ e ∈ evs, e ≠ .pauseCmd ∧ e ≠ .resumeCmd) :
    stopQuiet base (runEvents P x evs) := by
  induction evs generalizing x with
  | nil => exact h
  | cons e evs ih =>
    exact ih (sysStep P x e)
      (stopQuiet_step P base x e h (he e (List.mem_cons_self e evs)))
      (fun a ha => he a (List.mem_cons_of_mem e ha))

/-- C6: a `stopJob` call writes status `stopped` immediately (for any live
state), and when the stop arrives while the loop is in a countdown sleep
then along any continuation without further user commands no recipient
operation happens again — `progress.current`, `results` and `stats` keep the
values they had at the stop, which count only the recipients fully processed
before it, the loop never reaches another fetch, and when the run terminates
its status is `stopped`, not `completed`. -/
theorem c6_stop_is_immediate_and_final
    (P : RunParams) (s s2 : Sys) (i rem k : Nat) (evs : List Ev)
    (hpc : s.pc = .sleep i rem)
    (hevs : ∀ e ∈ evs, e ≠ .pauseCmd ∧ e ≠ .resumeCmd) :
    (sysStep P s2 .stopCmd).job.status = .stopped ∧
    (sysStep P s .stopCmd).job.status = .stopped ∧
    (runEvents P (sysStep P s .stopCmd) evs).job.progress.current =
      s.job.progress.current ∧
    (runEvents P (sysStep P s .stopCmd) evs).job.results = s.job.results ∧
    (runEvents P (sysStep P s .stopCmd) evs).job.stats = s.job.stats ∧
    (runEvents P (sysStep P s .stopCmd) evs).pc ≠ .net k ∧
    ((runEvents P (sysStep P s .stopCmd) evs).pc = .done →
      (runEvents P (sysStep P s .stopCmd) evs).job.status = .stopped) := by
  have h0 : stopQuiet s.job (sysStep P s .stopCmd) :=
    ⟨rfl, rfl, rfl, rfl, Or.inl ⟨i, rem, hpc⟩⟩
  have hfin := stopQuiet_run P s.job (sysStep P s .stopCmd) evs h0 hevs
  obtain ⟨-, f1, f2, f3, fp⟩ := hfin
  refine ⟨rfl, rfl, f3, f1, f2, ?_, ?_⟩
  · rcases fp with ⟨i', rem', hp⟩ | ⟨hp, -⟩ <;> rw [hp] <;> simp
  · intro hdone
    rcases fp with ⟨i', rem', hp⟩ | ⟨-, hst⟩
    · rw [hp] at hdone; exact absurd hdone (by simp)
    · exact hst

/-- Witness for C6: stop while recipient 1 of a two-recipient run waits out
a two-second countdown; one timer wake-up and one tick later the run has
terminated with status `stopped` and nothing recorded beyond recipient 1. -/
theorem c6_stop_is_immediate_and_final_witness :
    (runEvents ⟨["a@x.com", "b@x.com"], 2⟩
        (sysStep ⟨["a@x.com", "b@x.com"], 2⟩
          ⟨{ emailList := "a@x.com\nb@x.com", subject := "s", content := "c",
             fromEmail := "", fromName := "", delay := 2,
             status := .waiting, progress := ⟨1, 2⟩,
             results := [⟨1, "a@x.com", .success, "r1"⟩],
             stats := ⟨1, 0⟩, elapsedSeconds := 1, countdown := 2 },
           ⟨false, false⟩, .sleep 1 2⟩ .stopCmd)
        [.timer, .tick]).job.progress.current = 1 ∧
    ((runEvents ⟨["a@x.com", "b@x.com"], 2⟩
        (sysStep ⟨["a@x.com", "b@x.com"], 2⟩
          ⟨{ emailList := "a@x.com\nb@x.com", subject := "s", content := "c",
             fromEmail := "", fromName := "", delay := 2,
             status := .waiting, progress := ⟨1, 2⟩,
             results := [⟨1, "a@x.com", .success, "r1"⟩],
             stats := ⟨1, 0⟩, elapsedSeconds := 1, countdown := 2 },
           ⟨false, false⟩, .sleep 1 2⟩ .stopCmd)
        [.timer, .tick]).pc = .done →
      (runEvents ⟨["a@x.com", "b@x.com"], 2⟩
        (sysStep ⟨["a@x.com", "b@x.com"], 2⟩
          ⟨{ emailList := "a@x.com\nb@x.com", subject := "s", content := "c",
             fromEmail := "", fromName := "", delay := 2,
             status := .waiting, progress := ⟨1, 2⟩,
             results := [⟨1, "a@x.com", .success, "r1"⟩],
             stats := ⟨1, 0⟩, elapsedSeconds := 1, countdown := 2 },
           ⟨false, false⟩, .sleep 1 2⟩ .stopCmd)
        [.timer, .tick]).job.status = .stopped) := by
  have h := c6_stop_is_immediate_and_final
    ⟨["a@x.com", "b@x.com"], 2⟩
    ⟨{ emailList := "a@x.com\nb@x.com", subject := "s", content := "c",
       fromEmail := "", fromName := "", delay := 2,
       status := .waiting, progress := ⟨1, 2⟩,
       results := [⟨1, "a@x.com", .success, "r1"⟩],
       stats := ⟨1, 0⟩, elapsedSeconds := 1, countdown := 2 },
     ⟨false, false⟩, .sleep 1 2⟩
    ⟨{ emailList := "a@x.com\nb@x.com", subject := "s", content := "c",
       fromEmail := "", fromName := "", delay := 2,
       status := .waiting, progress := ⟨1, 2⟩,
       results := [⟨1, "a@x.com", .success, "r1"⟩],
       stats := ⟨1, 0⟩, elapsedSeconds := 1, countdown := 2 },
     ⟨false, false⟩, .sleep 1 2⟩
    1 2 0 [.timer, .tick] rfl (by decide)
  exact ⟨h.2.2.1, h.2.2.2.2.2.2⟩

/-! ### Pause and resume during a countdown (claim C7) -/

/-- A paused, unstopped token suspends the countdown head into the in-delay
pause-wait sleep, keeping the remaining value. -/
theorem delayIter_paused (i rem : Nat) (j : JobState) (hr : 0 < rem) :
    delayIter ⟨true, false⟩ i rem j = (j, .pauseB i rem) := by
  unfold delayIter; rw [if_pos hr]; simp

/-- A state fixed by one event is fixed by any number of its repetitions. -/
theorem runEvents_fix (P : RunParams) (x : Sys) (ev : Ev) (k : Nat)
    (hfix : sysStep P x ev = x) :
    runEvents P x (List.replicate k ev) = x := by
  induction k with
  | zero => rfl
  | succ n ih =>
    show runEvents P (sysStep P x ev) (List.replicate n ev) = x
    rw [hfix]; exact ih

/-- C7: pausing during a countdown does not touch the countdown value; the
already-dispatched countdown second still lands (one decrement to
`rem - 1`), after which the countdown is frozen exactly at `rem - 1` for as
long as the pause lasts; resuming continues decrementing from `rem - 1`
(`rem - 2` on the next second) instead of restarting from the configured
delay. -/
theorem c7_pause_resume_preserves_countdown
    (P : RunParams) (s : Sys) (i rem k : Nat)
    (hpc : s.pc = .sleep i rem)
    (hctrl : s.ctrl = ⟨false, false⟩)
    (hcd : s.job.countdown = rem)
    (hrem : 2 ≤ rem) :
    (sysStep P s .pauseCmd).job.countdown = rem ∧
    (sysStep P s .pauseCmd).job.status = .paused ∧
    (runEvents P s [.pauseCmd, .timer]).pc = .pauseB i (rem - 1) ∧
    (runEvents P s [.pauseCmd, .timer]).job.countdown = rem - 1 ∧
    runEvents P s (.pauseCmd :: .timer :: List.replicate k .timer) =
      runEvents P s [.pauseCmd, .timer] ∧
    (runEvents P s
        (.pauseCmd :: .timer :: List.replicate k .timer ++
          [.resumeCmd, .timer])).pc = .sleep i (rem - 1) ∧
    (runEvents P s
        (.pauseCmd :: .timer :: List.replicate k .timer ++
          [.resumeCmd, .timer])).job.countdown = rem - 1 ∧
    (runEvents P s
        (.pauseCmd :: .timer :: List.replicate k .timer ++
          [.resumeCmd, .timer, .timer])).job.countdown = rem - 2 := by
  obtain ⟨job, ctrl, pc⟩ := s
  have hpc' : pc = .sleep i rem := hpc
  have hctrl' : ctrl = ⟨false, false⟩ := hctrl
  subst hpc'
  subst hctrl'
  have hcd' : job.countdown = rem := hcd
  have e1 : sysStep P ⟨job, ⟨false, false⟩, .sleep i rem⟩ .pauseCmd =
      ⟨{ job with status := .paused }, ⟨true, false⟩, .sleep i rem⟩ := rfl
  have e2 : sysStep P
      ⟨{ job with status := .paused }, ⟨true, false⟩, .sleep i rem⟩ .timer =
      ⟨{ job with status := .paused, countdown := rem - 1 }, ⟨true, false⟩,
        .pauseB i (rem - 1)⟩ := by
    dsimp only [sysStep, applyBlk]
    unfold wakeSleep
    rw [delayIter_paused i (rem - 1) _ (by omega)]
  have efix : sysStep P
      ⟨{ job with status := .paused, countdown := rem - 1 }, ⟨true, false⟩,
        .pauseB i (rem - 1)⟩ .timer =
      ⟨{ job with status := .paused, countdown := rem - 1 }, ⟨true, false⟩,
        .pauseB i (rem - 1)⟩ := by
    dsimp only [sysStep]
    unfold wakePauseB
    rw [if_pos ⟨rfl, by simp⟩]
    rfl
  have e4 : sysStep P
      ⟨{ job with status := .paused, countdown := rem - 1 }, ⟨true, false⟩,
        .pauseB i (rem - 1)⟩ .resumeCmd =
      ⟨{ job with status := .processing, countdown := rem - 1 },
        ⟨false, false⟩, .pauseB i (rem - 1)⟩ := rfl
  have e5 : sysStep P
      ⟨{ job with status := .processing, countdown := rem - 1 },
        ⟨false, false⟩, .pauseB i (rem - 1)⟩ .timer =
      ⟨{ job with status := .processing, countdown := rem - 1 },
        ⟨false, false⟩, .sleep i (rem - 1)⟩ := by
    dsimp only [sysStep]
    unfold wakePauseB
    rw [if_neg (by simp)]
    rfl
  have e6 : (sysStep P
      ⟨{ job with status := .processing, countdown := rem - 1 },
        ⟨false, false⟩, .sleep i (rem - 1)⟩ .timer).job.countdown =
      rem - 2 := by
    dsimp only [sysStep, applyBlk]
    unfold wakeSleep
    by_cases h2 : 0 < rem - 1 - 1
    · rw [delayIter_fresh i (rem - 1 - 1) _ h2]
      rfl
    · have h0 : rem - 1 - 1 = 0 := by omega
      rw [h0, delayIter_fresh_zero]
      exact (by omega : (0 : Nat) = rem - 2)
  have hrep := runEvents_fix P
    ⟨{ job with status := .paused, countdown := rem - 1 }, ⟨true, false⟩,
      .pauseB i (rem - 1)⟩ .timer k efix
  refine ⟨?_, ?_, ?_, ?_, ?_, ?_, ?_, ?_⟩
  · rw [e1]; exact hcd'
  · rw [e1]
  · simp only [runEvents, List.foldl_cons, List.foldl_nil]
    rw [e1, e2]
  · simp only [runEvents, List.foldl_cons, List.foldl_nil]
    rw [e1, e2]
  · simp only [runEvents, List.foldl_cons, List.foldl_nil]
    rw [e1, e2]
    exact hrep
  · simp only [runEvents, List.foldl_cons, List.foldl_nil, List.foldl_append]
    rw [e1, e2]
    simp only [runEvents] at hrep
    rw [hrep, e4, e5]
  · simp only [runEvents, List.foldl_cons, List.foldl_nil, List.foldl_append]
    rw [e1, e2]
    simp only [runEvents] at hrep
    rw [hrep, e4, e5]
  · simp only [runEvents, List.foldl_cons, List.foldl_nil, List.foldl_append]
    rw [e1, e2]
    simp only [runEvents] at hrep
    rw [hrep, e4, e5]
    exact e6

/-- Witness for C7: pause with three seconds of countdown left, hold for two
poll cycles, resume. -/
theorem c7_pause_resume_preserves_countdown_witness :
    (sysStep ⟨["a@x.com", "b@x.com"], 3⟩
      ⟨{ emailList := "a@x.com\nb@x.com", subject := "s", content := "c",
         fromEmail := "", fromName := "", delay := 3, status := .waiting,
         progress := ⟨1, 2⟩, results := [⟨1, "a@x.com", .success, "r1"⟩],
         stats := ⟨1, 0⟩, elapsedSeconds := 2, countdown := 3 },
       ⟨false, false⟩, .sleep 1 3⟩ .pauseCmd).job.countdown = 3 ∧
    (runEvents ⟨["a@x.com", "b@x.com"], 3⟩
      ⟨{ emailList := "a@x.com\nb@x.com", subject := "s", content := "c",
         fromEmail := "", fromName := "", delay := 3, status := .waiting,
         progress := ⟨1, 2⟩, results := [⟨1, "a@x.com", .success, "r1"⟩],
         stats := ⟨1, 0⟩, elapsedSeconds := 2, countdown := 3 },
       ⟨false, false⟩, .sleep 1 3⟩
      (.pauseCmd :: .timer :: List.replicate 2 .timer ++
        [.resumeCmd, .timer])).job.countdown = 3 - 1 ∧
    (runEvents ⟨["a@x.com", "b@x.com"], 3⟩
      ⟨{ emailList := "a@x.com\nb@x.com", subject := "s", content := "c",
         fromEmail := "", fromName := "", delay := 3, status := .waiting,
         progress := ⟨1, 2⟩, results := [⟨1, "a@x.com", .success, "r1"⟩],
         stats := ⟨1, 0⟩, elapsedSeconds := 2, countdown := 3 },
       ⟨false, false⟩, .sleep 1 3⟩
      (.pauseCmd :: .timer :: List.replicate 2 .timer ++
        [.resumeCmd, .timer, .timer])).job.countdown = 3 - 2 := by
  have h := c7_pause_resume_preserves_countdown
    ⟨["a@x.com", "b@x.com"], 3⟩
    ⟨{ emailList := "a@x.com\nb@x.com", subject := "s", content := "c",
       fromEmail := "", fromName := "", delay := 3, status := .waiting,
       progress := ⟨1, 2⟩, results := [⟨1, "a@x.com", .success, "r1"⟩],
       stats := ⟨1, 0⟩, elapsedSeconds := 2, countdown := 3 },
     ⟨false, false⟩, .sleep 1 3⟩
    1 3 2 rfl rfl rfl (by decide)
  exact ⟨h.1, h.2.2.2.2.2.2.1, h.2.2.2.2.2.2.2⟩

/-! ### Countdown versus status (claim C8) -/

/-- C8 counterexample: start a two-recipient run with a two-second delay,
let recipient 1 succeed (the loop enters the countdown and suspends in the
sleep with status `waiting`, countdown 2), then pause.  The reachable state
has status `paused` with `countdown = 2 ≠ 0`, refuting the claim that the
countdown is nonzero only while status is `waiting`. -/
theorem c8_countdown_paused_counterexample :
    startJob ⟨some { defaultJobState with
                     emailList := "a@x.com\nb@x.com", subject := "s",
                     content := "c", delay := 2 }, none⟩ =
      (⟨some { emailList := "a@x.com\nb@x.com", subject := "s",
               content := "c", fromEmail := "", fromName := "", delay := 2,
               status := .processing, progress := ⟨0, 2⟩, results := [],
               stats := ⟨0, 0⟩, elapsedSeconds := 0, countdown := 0 },
        some ⟨false, false⟩⟩,
       Sum.inr (⟨["a@x.com", "b@x.com"], 2⟩,
         ⟨{ emailList := "a@x.com\nb@x.com", subject := "s", content := "c",
            fromEmail := "", fromName := "", delay := 2,
            status := .processing, progress := ⟨0, 2⟩, results := [],
            stats := ⟨0, 0⟩, elapsedSeconds := 0, countdown := 0 },
          ⟨false, false⟩, .net 0⟩)) ∧
    (runEvents ⟨["a@x.com", "b@x.com"], 2⟩
      ⟨{ emailList := "a@x.com\nb@x.com", subject := "s", content := "c",
         fromEmail := "", fromName := "", delay := 2, status := .processing,
         progress := ⟨0, 2⟩, results := [], stats := ⟨0, 0⟩,
         elapsedSeconds := 0, countdown := 0 },
       ⟨false, false⟩, .net 0⟩
      [.netRes (.ok "r"), .pauseCmd]).job.status = .paused ∧
    (runEvents ⟨["a@x.com", "b@x.com"], 2⟩
      ⟨{ emailList := "a@x.com\nb@x.com", subject := "s", content := "c",
         fromEmail := "", fromName := "", delay := 2, status := .processing,
         progress := ⟨0, 2⟩, results := [], stats := ⟨0, 0⟩,
         elapsedSeconds := 0, countdown := 0 },
       ⟨false, false⟩, .net 0⟩
      [.netRes (.ok "r"), .pauseCmd]).job.countdown = 2 := by
  refine ⟨by decide, by decide, by decide⟩

/-- The countdown/status invariant that does hold: at the fetch and in the
pre-delay pause wait the countdown is zero, and a `completed` status occurs
only at termination with countdown zero; the status is never `idle` after a
start. -/
def cdInv (s : Sys) : Prop :=
  (∀ i, s.pc = .net i → s.job.countdown = 0) ∧
  (∀ i, s.pc = .pauseA i → s.job.countdown = 0) ∧
  (s.job.status = .completed → s.pc = .done ∧ s.job.countdown = 0) ∧
  s.job.status ≠ .idle

/-- The possible results of the pre-delay pause wake-up, with the exact job
writes of each path. -/
theorem wakePauseA_shapes (P : RunParams) (ctrl : Ctrl) (i : Nat)
    (j : JobState) :
    wakePauseA P ctrl i j = (j, .pauseA i) ∨
    wakePauseA P ctrl i j = (j, .done) ∨
    wakePauseA P ctrl i j =
      ({ j with status := .waiting, countdown := P.delay }, .pauseB i P.delay) ∨
    wakePauseA P ctrl i j =
      ({ j with status := .waiting, countdown := P.delay }, .sleep i P.delay) ∨
    wakePauseA P ctrl i j =
      ({ j with status := .stopped, countdown := 0 }, .done) ∨
    wakePauseA P ctrl i j = ({ j with status := .stopped }, .done) ∨
    wakePauseA P ctrl i j = (j, .net i) := by
  unfold wakePauseA afterPauseBlock delayEnter delayIter delayExitBlock
    fetchBlock finishBlock
  split_ifs <;> simp_all

/-- The possible results of the iteration top, with the exact job writes. -/
theorem iterTop_shapes (P : RunParams) (ctrl : Ctrl) (i : Nat)
    (j : JobState) :
    iterTop P ctrl i j = ({ j with status := .stopped }, .done) ∨
    iterTop P ctrl i j = (j, .pauseA i) ∨
    iterTop P ctrl i j = (j, .done) ∨
    iterTop P ctrl i j =
      ({ j with status := .waiting, countdown := P.delay }, .pauseB i P.delay) ∨
    iterTop P ctrl i j =
      ({ j with status := .waiting, countdown := P.delay }, .sleep i P.delay) ∨
    iterTop P ctrl i j =
      ({ j with status := .stopped, countdown := 0 }, .done) ∨
    iterTop P ctrl i j = (j, .net i) := by
  unfold iterTop afterPauseBlock delayEnter delayIter delayExitBlock
    fetchBlock finishBlock
  split_ifs <;> simp_all

/-- The possible results of the countdown-sleep wake-up, with the exact job
writes. -/
theorem wakeSleep_shapes (ctrl : Ctrl) (i rem : Nat) (j : JobState) :
    wakeSleep ctrl i rem j =
      ({ j with countdown := rem - 1 }, .pauseB i (rem - 1)) ∨
    wakeSleep ctrl i rem j =
      ({ j with countdown := rem - 1 }, .sleep i (rem - 1)) ∨
    wakeSleep ctrl i rem j =
      ({ j with status := .stopped, countdown := 0 }, .done) ∨
    wakeSleep ctrl i rem j =
      ({ j with status := .processing, countdown := 0 }, .net i) := by
  unfold wakeSleep delayIter delayExitBlock fetchBlock finishBlock
  split_ifs <;> simp

/-- `recordOutcome` touches only the counters: status and countdown are
unchanged. -/
theorem recordOutcome_misc (i : Nat) (em : String) (o : NetOutcome)
    (j : JobState) :
    (recordOutcome i em o j).countdown = j.countdown ∧
    (recordOutcome i em o j).status = j.status := by
  cases o <;> simp [recordOutcome]

/-- Introduction rule for `cdInv`. -/
theorem cdInv_mk (job' : JobState) (ctrl' : Ctrl) (pc' : Susp)
    (h1 : ∀ i, pc' = .net i → job'.countdown = 0)
    (h2 : ∀ i, pc' = .pauseA i → job'.countdown = 0)
    (h3 : job'.status = .completed → pc' = .done ∧ job'.countdown = 0)
    (h4 : job'.status ≠ .idle) : cdInv ⟨job', ctrl', pc'⟩ :=
  ⟨h1, h2, h3, h4⟩

/-- Every scheduling step preserves `cdInv`. -/
theorem cdInv_step (P : RunParams) (s : Sys) (e : Ev)
    (h : cdInv s) : cdInv (sysStep P s e) := by
  obtain ⟨job, ctrl, pc⟩ := s
  obtain ⟨hnet, hpA, hcompl, hidle⟩ := h
  cases e with
  | timer =>
    cases pc with
    | pauseA i =>
      have hcd0 : job.countdown = 0 := hpA i rfl
      have hnc : job.status ≠ .completed := fun hcm =>
        absurd (hcompl hcm).1 (by simp)
      dsimp only [sysStep, applyBlk]
      rcases wakePauseA_shapes P ctrl i job with hw|hw|hw|hw|hw|hw|hw <;>
        rw [hw] <;>
        exact cdInv_mk _ _ _ (by intro i' hq; simp_all)
          (by intro i' hq; simp_all) (by intro hcm; simp_all) (by simp_all)
    | pauseB i rem =>
      have hnc : job.status ≠ .completed := fun hcm =>
        absurd (hcompl hcm).1 (by simp)
      dsimp only [sysStep, applyBlk]
      rcases wakePauseB_pc ctrl i rem job with hw|hw <;>
        (rw [show wakePauseB ctrl i rem job =
            (job, (wakePauseB ctrl i rem job).2) from by
          unfold wakePauseB; split <;> rfl, hw]) <;>
        exact cdInv_mk _ _ _ (by intro i' hq; simp_all)
          (by intro i' hq; simp_all) (by intro hcm; simp_all) (by simp_all)
    | sleep i rem =>
      have hnc : job.status ≠ .completed := fun hcm =>
        absurd (hcompl hcm).1 (by simp)
      dsimp only [sysStep, applyBlk]
      rcases wakeSleep_shapes ctrl i rem job with hw|hw|hw|hw <;>
        rw [hw] <;>
        exact cdInv_mk _ _ _ (by intro i' hq; simp_all)
          (by intro i' hq; simp_all) (by intro hcm; simp_all) (by simp_all)
    | net i => exact ⟨hnet, hpA, hcompl, hidle⟩
    | done => exact ⟨hnet, hpA, hcompl, hidle⟩
  | netRes o =>
    cases pc with
    | pauseA i => exact ⟨hnet, hpA, hcompl, hidle⟩
    | pauseB i rem => exact ⟨hnet, hpA, hcompl, hidle⟩
    | sleep i rem => exact ⟨hnet, hpA, hcompl, hidle⟩
    | done => exact ⟨hnet, hpA, hcompl, hidle⟩
    | net i =>
      have hcd0 : job.countdown = 0 := hnet i rfl
      have hnc : job.status ≠ .completed := fun hcm =>
        absurd (hcompl hcm).1 (by simp)
      obtain ⟨hm1, hm2⟩ := recordOutcome_misc i (P.emails.getD i "") o job
      have hcd0' : (recordOutcome i (P.emails.getD i "") o job).countdown = 0 := by
        rw [hm1]; exact hcd0
      have hnc' : (recordOutcome i (P.emails.getD i "") o job).status ≠
          .completed := by rw [hm2]; exact hnc
      have hidle' : (recordOutcome i (P.emails.getD i "") o job).status ≠
          .idle := by rw [hm2]; exact hidle
      dsimp only [sysStep, applyBlk]
      unfold wakeNet
      split
      · rcases iterTop_shapes P ctrl (i + 1)
          (recordOutcome i (P.emails.getD i "") o job) with
          hw|hw|hw|hw|hw|hw|hw <;>
          rw [hw] <;>
          exact cdInv_mk _ _ _ (by intro i' hq; simp_all)
            (by intro i' hq; simp_all) (by intro hcm; simp_all)
            (by simp_all)
      · rcases finishBlock_counters ctrl
          (recordOutcome i (P.emails.getD i "") o job) with - 
        unfold finishBlock
        split
        · exact cdInv_mk _ _ _ (by intro i' hq; simp_all)
            (by intro i' hq; simp_all) (by intro hcm; simp_all)
            (by simp_all)
        · exact cdInv_mk _ _ _ (by intro i' hq; simp_all)
            (by intro i' hq; simp_all)
            (by intro hcm; exact ⟨rfl, hcd0'⟩) (by simp)
  | pauseCmd =>
    exact cdInv_mk _ _ _ (fun i hq => hnet i hq) (fun i hq => hpA i hq)
      (by intro hcm; simp_all) (by simp)
  | resumeCmd =>
    exact cdInv_mk _ _ _ (fun i hq => hnet i hq) (fun i hq => hpA i hq)
      (by intro hcm; simp_all) (by simp)
  | stopCmd =>
    exact cdInv_mk _ _ _ (fun i hq => hnet i hq) (fun i hq => hpA i hq)
      (by intro hcm; simp_all) (by simp)
  | tick =>
    dsimp only [sysStep]
    split
    · exact cdInv_mk _ _ _ (fun i hq => hnet i hq) (fun i hq => hpA i hq)
        (fun hcm => hcompl hcm) hidle
    · exact ⟨hnet, hpA, hcompl, hidle⟩

/-- `cdInv` holds along every event trace. -/
theorem cdInv_run (P : RunParams) (s : Sys) (evs : List Ev)
    (h : cdInv s) : cdInv (runEvents P s evs) := by
  induction evs generalizing s with
  | nil => exact h
  | cons e evs ih => exact ih (sysStep P s e) (cdInv_step P s e h)

/-- A successful `startJob` establishes `cdInv`. -/
theorem cdInv_start (acc acc' : Account) (P : RunParams) (s : Sys)
    (h : startJob acc = (acc', Sum.inr (P, s))) : cdInv s := by
  obtain ⟨-, -, -, hpc, hjob, -⟩ := startJob_inr acc acc' P s h
  obtain ⟨job, ctrl, pc⟩ := s
  have hpc' : pc = .net 0 := hpc
  have hjob' : job = startReset acc := hjob
  subst hpc'
  subst hjob'
  exact cdInv_mk _ _ _ (fun i _ => rfl) (fun i hq => by simp at hq)
    (fun hcm => by simp [startReset] at hcm) (by simp [startReset])

/-- C8 amended: in every state reachable after a start, whenever status is
`idle` or `completed` the countdown is zero; the original claim fails for
`paused` (and transiently `processing` and `stopped`) because a pause,
resume or stop issued during a countdown leaves the nonzero countdown in
place (see the counterexample). -/
theorem c8_amended_countdown_zero
    (acc acc' : Account) (P : RunParams) (s0 : Sys) (evs : List Ev)
    (h : startJob acc = (acc', Sum.inr (P, s0)))
    (hst : (runEvents P s0 evs).job.status = .completed ∨
      (runEvents P s0 evs).job.status = .idle) :
    (runEvents P s0 evs).job.countdown = 0 := by
  obtain ⟨-, -, hcompl, hidle⟩ :=
    cdInv_run P s0 evs (cdInv_start acc acc' P s0 h)
  rcases hst with hst | hst
  · exact (hcompl hst).2
  · exact absurd hst hidle

/-- Witness for the amended C8: a one-recipient run completes with countdown
zero. -/
theorem c8_amended_countdown_zero_witness :
    (runEvents ⟨["a@x.com"], 1⟩
      ⟨{ emailList := "a@x.com", subject := "s", content := "c",
         fromEmail := "", fromName := "", delay := 1, status := .processing,
         progress := ⟨0, 1⟩, results := [], stats := ⟨0, 0⟩,
         elapsedSeconds := 0, countdown := 0 },
       ⟨false, false⟩, .net 0⟩
      [.netRes (.ok "r")]).job.countdown = 0 := by
  exact c8_amended_countdown_zero
    ⟨some { defaultJobState with
            emailList := "a@x.com", subject := "s", content := "c" }, none⟩
    ⟨some { emailList := "a@x.com", subject := "s", content := "c",
            fromEmail := "", fromName := "", delay := 1,
            status := .processing, progress := ⟨0, 1⟩, results := [],
            stats := ⟨0, 0⟩, elapsedSeconds := 0, countdown := 0 },
     some ⟨false, false⟩⟩
    ⟨["a@x.com"], 1⟩
    ⟨{ emailList := "a@x.com", subject := "s", content := "c",
       fromEmail := "", fromName := "", delay := 1, status := .processing,
       progress := ⟨0, 1⟩, results := [], stats := ⟨0, 0⟩,
       elapsedSeconds := 0, countdown := 0 },
     ⟨false, false⟩, .net 0⟩
    [.netRes (.ok "r")]
    (by decide) (Or.inl (by decide))

/-! ### A second start while the previous loop is live (claim C9)

`controllers.current[accountId]` is replaced wholesale by a second
`startJob`; the orphaned loop recaptures it with
`const ctrl = controllers.current[accountId]` at its next iteration top, so
from the moment its in-flight fetch resolves, every token it consults is the
fresh token of the new run.  `Sys2` models the account from the instant of
the second start onward: the shared job record, the current (fresh) token,
and the suspension points of the orphaned loop (`pcA`, here at its fetch,
whose stale iteration-local token is never consulted again) and of the new
loop (`pcB`). -/
structure Sys2 where
  job : JobState
  ctrl : Ctrl
  pcA : Susp
  pcB : Susp
deriving DecidableEq, Repr

/-- Write back the block result of the orphaned loop. -/
def applyA (s : Sys2) (jp : JobState × Susp) : Sys2 :=
  { s with job := jp.1, pcA := jp.2 }

/-- Write back the block result of the new loop. -/
def applyB (s : Sys2) (jp : JobState × Susp) : Sys2 :=
  { s with job := jp.1, pcB := jp.2 }

/-- Events of the two-loop system: scheduler steps of either loop, the user
commands, and the ticker. -/
inductive Ev2
  | timerA
  | netA (o : NetOutcome)
  | timerB
  | netB (o : NetOutcome)
  | pauseCmd
  | resumeCmd
  | stopCmd
  | tick
deriving DecidableEq, Repr

/-- One scheduling step of the two-loop system.  `PA` are the run parameters
captured by the orphaned loop at its own start, `PB` those of the new run;
both loops read and write the one shared job record and consult the one
current token. -/
def sys2Step (PA PB : RunParams) (s : Sys2) (e : Ev2) : Sys2 :=
  match e with
  | .timerA =>
    match s.pcA with
    | .pauseA i => applyA s (wakePauseA PA s.ctrl i s.job)
    | .pauseB i rem => applyA s (wakePauseB s.ctrl i rem s.job)
    | .sleep i rem => applyA s (wakeSleep s.ctrl i rem s.job)
    | _ => s
  | .netA o =>
    match s.pcA with
    | .net i => applyA s (wakeNet PA s.ctrl i o s.job)
    | _ => s
  | .timerB =>
    match s.pcB with
    | .pauseA i => applyB s (wakePauseA PB s.ctrl i s.job)
    | .pauseB i rem => applyB s (wakePauseB s.ctrl i rem s.job)
    | .sleep i rem => applyB s (wakeSleep s.ctrl i rem s.job)
    | _ => s
  | .netB o =>
    match s.pcB with
    | .net i => applyB s (wakeNet PB s.ctrl i o s.job)
    | _ => s
  | .pauseCmd =>
    { s with
      ctrl := { s.ctrl with isPaused := true }
      job := { s.job with status := .paused } }
  | .resumeCmd =>
    { s with
      ctrl := { s.ctrl with isPaused := false }
      job := { s.job with status := .processing } }
  | .stopCmd =>
    { s with
      ctrl := { isPaused := false, isStopped := true }
      job := { s.job with status := .stopped } }
  | .tick =>
    if s.job.status = .processing ∨ s.job.status = .waiting then
      { s with job := { s.job with elapsedSeconds := s.job.elapsedSeconds + 1 } }
    else s

/-- The reset write of a second `startJob` on the current job record. -/
def restartReset (s : Sys) : JobState :=
  { s.job with
    status := .processing
    results := []
    stats := ⟨0, 0⟩
    progress := ⟨0, (parseEmails s.job.emailList).length⟩
    elapsedSeconds := 0
    countdown := 0 }

/-- A second `startJob` for the account issued while the previous run-loop
is suspended at `s.pc` (with its fetch in flight): same validation, then the
token is replaced by a fresh one, the shared record is reset, and the new
loop runs to its first suspension while the orphaned loop stays parked. -/
def restartJob (s : Sys) : StartError ⊕ (RunParams × Sys2) :=
  if (parseEmails s.job.emailList).length = 0 then .inl .noRecipients
  else if s.job.subject = "" ∨ s.job.content = "" then .inl .missingFields
  else
    .inr (⟨parseEmails s.job.emailList, s.job.delay⟩,
      { job := (iterTop ⟨parseEmails s.job.emailList, s.job.delay⟩
          ⟨false, false⟩ 0 (restartReset s)).1
        ctrl := ⟨false, false⟩
        pcA := s.pc
        pcB := (iterTop ⟨parseEmails s.job.emailList, s.job.delay⟩
          ⟨false, false⟩ 0 (restartReset s)).2 })

/-- C9 counterexample: a three-recipient run (no delay) is restarted while
its third fetch is in flight.  The orphaned loop does not exit silently at
its next suspension point: when its fetch resolves it records outcome id 3
into the freshly reset record, reads the fresh (unstopped) token, and its
completion check even writes status `completed` while the new run is still
on its first recipient; after the new loop records its own first outcome the
shared `results` holds entries written by both loops. -/
theorem c9_orphan_counterexample :
    restartJob
      ⟨{ emailList := "a@x.com\nb@x.com\nc@x.com", subject := "s",
         content := "c", fromEmail := "", fromName := "", delay := 0,
         status := .processing, progress := ⟨2, 3⟩,
         results := [⟨2, "b@x.com", .success, "r2"⟩,
           ⟨1, "a@x.com", .success, "r1"⟩],
         stats := ⟨2, 0⟩, elapsedSeconds := 2, countdown := 0 },
       ⟨false, false⟩, .net 2⟩ =
      Sum.inr (⟨["a@x.com", "b@x.com", "c@x.com"], 0⟩,
        ⟨{ emailList := "a@x.com\nb@x.com\nc@x.com", subject := "s",
           content := "c", fromEmail := "", fromName := "", delay := 0,
           status := .processing, progress := ⟨0, 3⟩, results := [],
           stats := ⟨0, 0⟩, elapsedSeconds := 0, countdown := 0 },
         ⟨false, false⟩, .net 2, .net 0⟩) ∧
    (sys2Step ⟨["a@x.com", "b@x.com", "c@x.com"], 0⟩
        ⟨["a@x.com", "b@x.com", "c@x.com"], 0⟩
        ⟨{ emailList := "a@x.com\nb@x.com\nc@x.com", subject := "s",
           content := "c", fromEmail := "", fromName := "", delay := 0,
           status := .processing, progress := ⟨0, 3⟩, results := [],
           stats := ⟨0, 0⟩, elapsedSeconds := 0, countdown := 0 },
         ⟨false, false⟩, .net 2, .net 0⟩
        (.netA (.ok "ro"))).job.results =
      [⟨3, "c@x.com", .success, "ro"⟩] ∧
    (sys2Step ⟨["a@x.com", "b@x.com", "c@x.com"], 0⟩
        ⟨["a@x.com", "b@x.com", "c@x.com"], 0⟩
        ⟨{ emailList := "a@x.com\nb@x.com\nc@x.com", subject := "s",
           content := "c", fromEmail := "", fromName := "", delay := 0,
           status := .processing, progress := ⟨0, 3⟩, results := [],
           stats := ⟨0, 0⟩, elapsedSeconds := 0, countdown := 0 },
         ⟨false, false⟩, .net 2, .net 0⟩
        (.netA (.ok "ro"))).job.status = .completed ∧
    (sys2Step ⟨["a@x.com", "b@x.com", "c@x.com"], 0⟩
        ⟨["a@x.com", "b@x.com", "c@x.com"], 0⟩
        (sys2Step ⟨["a@x.com", "b@x.com", "c@x.com"], 0⟩
          ⟨["a@x.com", "b@x.com", "c@x.com"], 0⟩
          ⟨{ emailList := "a@x.com\nb@x.com\nc@x.com", subject := "s",
             content := "c", fromEmail := "", fromName := "", delay := 0,
             status := .processing, progress := ⟨0, 3⟩, results := [],
             stats := ⟨0, 0⟩, elapsedSeconds := 0, countdown := 0 },
           ⟨false, false⟩, .net 2, .net 0⟩
          (.netA (.ok "ro")))
        (.netB (.ok "rn"))).job.results =
      [⟨1, "a@x.com", .success, "rn"⟩, ⟨3, "c@x.com", .success, "ro"⟩] := by
  refine ⟨by decide, by decide, by decide, by decide⟩

/-- C9 amended: a second `startJob` does register a fresh (unpaused,
unstopped) token that supersedes the prior one and leaves the orphaned loop
parked where it was; but the orphaned loop is not generation-guarded — at
its next resumption it records its outcome into the shared job record
(results grow, `progress.current` is overwritten with its own index), and
since the token it then reads is the fresh unstopped one it continues
running rather than exiting, so both loops record outcomes into the same
record. -/
theorem c9_amended_orphan_continues
    (PA PB : RunParams) (s : Sys2) (i : Nat) (o : NetOutcome)
    (x : Sys) (P2 : RunParams) (s2 : Sys2)
    (hpc : s.pcA = .net i)
    (hres : restartJob x = Sum.inr (P2, s2)) :
    (sys2Step PA PB s (.netA o)).job.results.length =
      s.job.results.length + 1 ∧
    (sys2Step PA PB s (.netA o)).job.progress.current = i + 1 ∧
    (i + 1 < PA.emails.length → s.ctrl.isStopped = false →
      (sys2Step PA PB s (.netA o)).pcA ≠ .done) ∧
    s2.ctrl = ⟨false, false⟩ ∧ s2.pcA = x.pc := by
  obtain ⟨job, ctrl, pcA, pcB⟩ := s
  have hpc' : pcA = .net i := hpc
  subst hpc'
  have hs2 : s2.ctrl = ⟨false, false⟩ ∧ s2.pcA = x.pc := by
    unfold restartJob at hres
    by_cases h0 : (parseEmails x.job.emailList).length = 0
    · rw [if_pos h0] at hres; exact absurd hres (by simp)
    · by_cases h1 : x.job.subject = "" ∨ x.job.content = ""
      · rw [if_neg h0, if_pos h1] at hres; exact absurd hres (by simp)
      · rw [if_neg h0, if_neg h1] at hres
        obtain ⟨-, hinj⟩ := Prod.mk.injEq .. ▸ (Sum.inr.injEq .. ▸ hres)
        rw [← hinj]
        exact ⟨rfl, rfl⟩
  dsimp only [sys2Step, applyA]
  have hrl : (recordOutcome i (PA.emails.getD i "") o job).results.length =
      job.results.length + 1 ∧
      (recordOutcome i (PA.emails.getD i "") o job).progress.current =
        i + 1 := by
    cases o <;> simp [recordOutcome]
  by_cases hlt : i + 1 < PA.emails.length
  · have hw : wakeNet PA ctrl i o job =
        iterTop PA ctrl (i + 1) (recordOutcome i (PA.emails.getD i "") o job) := by
      unfold wakeNet; rw [if_pos hlt]
    rw [hw]
    obtain ⟨f1, f2, f3⟩ :=
      iterTop_counters PA ctrl (i + 1)
        (recordOutcome i (PA.emails.getD i "") o job)
    refine ⟨?_, ?_, ?_, hs2.1, hs2.2⟩
    · rw [f3]; exact hrl.1
    · rw [f2]; exact hrl.2
    · intro _ hs
      exact iterTop_ne_done PA ctrl (i + 1) _ hs
  · have hw : wakeNet PA ctrl i o job =
        finishBlock ctrl (recordOutcome i (PA.emails.getD i "") o job) := by
      unfold wakeNet; rw [if_neg hlt]
    rw [hw]
    obtain ⟨f1, f2, f3⟩ :=
      finishBlock_counters ctrl (recordOutcome i (PA.emails.getD i "") o job)
    refine ⟨?_, ?_, ?_, hs2.1, hs2.2⟩
    · rw [f3]; exact hrl.1
    · rw [f2]; exact hrl.2
    · intro hlt2 _
      exact absurd hlt2 hlt

/-- Witness for the amended C9: the orphaned loop of the counterexample
state records and continues. -/
theorem c9_amended_orphan_continues_witness :
    (sys2Step ⟨["a@x.com", "b@x.com", "c@x.com"], 0⟩
        ⟨["x@y.com"], 0⟩
        ⟨{ emailList := "x@y.com", subject := "s", content := "c",
           fromEmail := "", fromName := "", delay := 0,
           status := .processing, progress := ⟨0, 1⟩, results := [],
           stats := ⟨0, 0⟩, elapsedSeconds := 0, countdown := 0 },
         ⟨false, false⟩, .net 1, .net 0⟩
        (.netA (.ok "ro"))).job.results.length = 0 + 1 ∧
    (sys2Step ⟨["a@x.com", "b@x.com", "c@x.com"], 0⟩
        ⟨["x@y.com"], 0⟩
        ⟨{ emailList := "x@y.com", subject := "s", content := "c",
           fromEmail := "", fromName := "", delay := 0,
           status := .processing, progress := ⟨0, 1⟩, results := [],
           stats := ⟨0, 0⟩, elapsedSeconds := 0, countdown := 0 },
         ⟨false, false⟩, .net 1, .net 0⟩
        (.netA (.ok "ro"))).pcA ≠ .done := by
  have h := c9_amended_orphan_continues
    ⟨["a@x.com", "b@x.com", "c@x.com"], 0⟩
    ⟨["x@y.com"], 0⟩
    ⟨{ emailList := "x@y.com", subject := "s", content := "c",
       fromEmail := "", fromName := "", delay := 0,
       status := .processing, progress := ⟨0, 1⟩, results := [],
       stats := ⟨0, 0⟩, elapsedSeconds := 0, countdown := 0 },
     ⟨false, false⟩, .net 1, .net 0⟩
    1 (.ok "ro")
    ⟨{ emailList := "x@y.com", subject := "s", content := "c",
       fromEmail := "", fromName := "", delay := 0,
       status := .processing, progress := ⟨2, 3⟩, results := [],
       stats := ⟨2, 0⟩, elapsedSeconds := 2, countdown := 0 },
     ⟨false, false⟩, .net 1⟩
    ⟨["x@y.com"], 0⟩
    ⟨{ emailList := "x@y.com", subject := "s", content := "c",
       fromEmail := "", fromName := "", delay := 0,
       status := .processing, progress := ⟨0, 1⟩, results := [],
       stats := ⟨0, 0⟩, elapsedSeconds := 0, countdown := 0 },
     ⟨false, false⟩, .net 1, .net 0⟩
    rfl (by decide)
  exact ⟨h.1, h.2.2.1 (by decide) rfl⟩
